import Mathlib

/-!
Verification development for the Master-Data-Scraper crawling engine.

Each definition below is a shallow embedding of a function of the Python
source (file and symbol named in its doc comment).  Machine floats of the
source are modelled as exact rationals (`ℚ`); wall-clock time is an explicit
`ℚ` parameter; calls into external libraries (the HTTP client, `validators`,
`difflib`, NLTK tokenisation, `re`, `sha256`) are modelled as oracle
parameters, while every piece of repository-owned logic is translated
directly.
-/

namespace MDS

/-! ## Rate limiter (src/utils/rate_limiter.py) -/

/-- State of `RateLimiter`: `default_delay`, the `domain_delays` dict and the
`last_request_time` defaultdict(float) (absent domains read as `0.0`). -/
structure RateLimiter where
  defaultDelay : ℚ
  domainDelays : List (String × ℚ)
  lastRequestTime : String → ℚ

/-- First-match association lookup: the semantics of `dict.get(k)` on the
`domain_delays` dict, represented as a key/value list. -/
def lookupQ (domain : String) : List (String × ℚ) → Option ℚ
  | [] => none
  | (k, v) :: rest => if k = domain then some v else lookupQ domain rest

/-- Embeds `RateLimiter.get_delay_for_domain`:
`self.domain_delays.get(domain, self.default_delay)`. -/
def getDelayForDomain (rl : RateLimiter) (domain : String) : ℚ :=
  match lookupQ domain rl.domainDelays with
  | some d => d
  | none => rl.defaultDelay

/-- Embeds `RateLimiter.wait_if_needed`.  `now` is the value of `time.time()`
on entry; `time.sleep` is exact in the model, so the timestamp recorded after
sleeping is `now + wait`.  Returns the wait time and the updated state. -/
def waitIfNeeded (rl : RateLimiter) (domain : String) (now : ℚ) : ℚ × RateLimiter :=
  let lastRequest := rl.lastRequestTime domain
  let requiredDelay := getDelayForDomain rl domain
  let timeSinceLast := now - lastRequest
  if timeSinceLast < requiredDelay then
    let waitTime := requiredDelay - timeSinceLast
    (waitTime, { rl with lastRequestTime :=
      fun d => if d = domain then now + waitTime else rl.lastRequestTime d })
  else
    (0, { rl with lastRequestTime :=
      fun d => if d = domain then now else rl.lastRequestTime d })

/-! ## Adaptive rate limiter (src/utils/rate_limiter.py, AdaptiveRateLimiter) -/

/-- State of `AdaptiveRateLimiter` (the fields of the subclass plus the
inherited `domain_delays`; `success_count` / `error_count` are
defaultdict(int)). -/
structure AdaptiveRL where
  defaultDelay : ℚ
  minDelay : ℚ
  maxDelay : ℚ
  backoffFactor : ℚ
  domainDelays : List (String × ℚ)
  successCount : String → ℕ
  errorCount : String → ℕ

/-- Inherited `get_delay_for_domain` on the adaptive limiter's state. -/
def adaptGetDelay (st : AdaptiveRL) (domain : String) : ℚ :=
  match lookupQ domain st.domainDelays with
  | some d => d
  | none => st.defaultDelay

/-- Sets `domain_delays[domain] = delay`, keeping the position of an existing
key (Python dict update semantics). -/
def updateAssoc (l : List (String × ℚ)) (domain : String) (delay : ℚ) :
    List (String × ℚ) :=
  if (lookupQ domain l).isSome then
    l.map (fun p => if p.1 = domain then (domain, delay) else p)
  else
    l ++ [(domain, delay)]

/-- Embeds `AdaptiveRateLimiter.record_error`:
increment `error_count[domain]`, zero `success_count[domain]`, and only when
`status_code == 429` or the incremented error count reaches 3 multiply the
domain delay by `backoff_factor` (capped at `max_delay`) and zero the error
count. -/
def recordError (st : AdaptiveRL) (domain : String) (statusCode : Option ℕ) :
    AdaptiveRL :=
  let ec := st.errorCount domain + 1
  let st1 := { st with
    errorCount := fun d => if d = domain then ec else st.errorCount d,
    successCount := fun d => if d = domain then 0 else st.successCount d }
  if statusCode = some 429 ∨ 3 ≤ ec then
    let currentDelay := adaptGetDelay st1 domain
    let newDelay := min st1.maxDelay (currentDelay * st1.backoffFactor)
    { st1 with
      domainDelays := updateAssoc st1.domainDelays domain newDelay,
      errorCount := fun d => if d = domain then 0 else st1.errorCount d }
  else
    st1

/-- A fresh `AdaptiveRateLimiter(1.0, 0.5, 10.0, 2.0)` with no history. -/
def freshAdaptive : AdaptiveRL :=
  { defaultDelay := 1, minDelay := 1/2, maxDelay := 10, backoffFactor := 2,
    domainDelays := [], successCount := fun _ => 0, errorCount := fun _ => 0 }

/-! ## Exponential backoff (src/utils/human_behavior.py, ExponentialBackoff) -/

/-- Embeds `ExponentialBackoff.get_delay` for a given value of the
`self.attempt` counter.  The two random draws are oracle parameters:
`jitterU ∈ [-1, 1]` stands for `random.uniform(-jitter_value, jitter_value)`
scaled by `delay * jitter`, and `humanVar ∈ [0.8, 1.2]` for the human-like
variation multiplier. -/
def getDelay (baseDelay maxDelay multiplier jitter : ℚ) (attempt : ℕ)
    (jitterU humanVar : ℚ) : ℚ :=
  let delay := min (baseDelay * multiplier ^ attempt) maxDelay
  let delay := if 0 < jitter then delay + delay * jitter * jitterU else delay
  let delay := delay * humanVar
  max delay baseDelay

/-- The deterministic skeleton of `get_delay`: jitter draw 0 and human-like
variation 1 (the neutral values of the random multipliers). -/
def getDelayDet (baseDelay maxDelay multiplier jitter : ℚ) (attempt : ℕ) : ℚ :=
  getDelay baseDelay maxDelay multiplier jitter attempt 0 1

/-! ## Input validation (src/core/validator.py, InputValidator.validate_url) -/

/-- Outcome of the `requests.head` accessibility probe inside
`validate_url` (an external HTTP call, hence an oracle value). -/
inductive HeadOutcome where
  | resp (status : ℕ)
  | timeoutErr
  | connectionErr
  | requestErr (msg : String)
deriving DecidableEq, Repr

/-- Python `str.startswith`, computed over the character lists of the two
strings. -/
def strStartsWith (s pre : String) : Bool := pre.data.isPrefixOf s.data

/-- Embeds `InputValidator.validate_url`.  `fmtValid` is the external
`validators.url` predicate and `head` the accessibility probe; the function
returns the `(is_valid, message-or-normalized-url)` tuple of the source. -/
def validateUrl (fmtValid : String → Bool) (head : String → HeadOutcome)
    (checkAccessibility : Bool) (url : String) : Bool × String :=
  if url = "" then (false, "URL cannot be empty")
  else
    let url2 := if strStartsWith url "http://" || strStartsWith url "https://"
                then url else "https://" ++ url
    if !(fmtValid url2) then (false, "Invalid URL format")
    else if checkAccessibility then
      match head url2 with
      | .resp status =>
        if status = 429 then
          (false, "Rate limit error (429). This site has rate limiting protection.")
        else if status = 403 then
          (false, "Access forbidden (403). This site may block automated requests.")
        else if 400 ≤ status then
          (false, "URL returned status code " ++ toString status)
        else (true, url2)
      | .timeoutErr => (false, "URL request timed out after 10 seconds")
      | .connectionErr => (false, "Could not connect to the URL (connection error)")
      | .requestErr m => (false, "URL is not accessible: " ++ m)
    else (true, url2)

/-- Python truthiness of the `(bool, str)` tuple returned by `validate_url`:
a two-element tuple is truthy whatever the Boolean inside, which is exactly
what `if not self.validator.validate_url(start_url)` tests in
`WebCrawler.crawl` (crawler.py:389) and `_is_valid_url` (crawler.py:158). -/
def pyTruthy (t : Bool × String) : Bool := true

/-! ## Crawl engine (src/core/crawler.py, WebCrawler) -/

/-- Result record for one crawled page (`CrawlResult` dataclass). -/
structure CrawlResult where
  url : String
  depth : ℕ
  title : Option String
  content : Option String
  links : List String
  matchedKeywords : List String
  error : Option String
deriving DecidableEq, Repr

/-- Page content delivered by the fetch collaborator after parsing: title,
extracted text, its lowercase form, and the outgoing candidate links
(absolute, normalized, and passing the URL validity filters — the
`urljoin`/`urlparse`/BeautifulSoup pipeline is external, so it is an oracle;
the repository-owned visited-set filtering is applied in `crawlPage`). -/
structure PageData where
  title : String
  text : String
  textLower : String
  links : List String
deriving DecidableEq, Repr

/-- Embeds `WebCrawler._check_keywords`: keywords already lowercased at
construction; a keyword matches when it occurs in the page's lowercase
text. -/
def checkKeywords (keywords : List String) (textLower : String) : List String :=
  keywords.filter (fun k => textLower.containsSubstr k.toSubstring)

/-- Crawler configuration (`max_depth`, `max_pages`, lowercased
`keywords`). -/
structure CrawlerCfg where
  maxDepth : ℕ
  maxPages : ℕ
  keywords : List String

/-- Embeds `WebCrawler.crawl_page`: a `none` fetch models a raised
exception or an empty response (both end in the `except` branch that
records the error on the result); on success the content is truncated to
5000 characters and links are extracted only when `depth < max_depth`,
filtered against the visited set (crawler.py:264, the crawler has already
marked the current URL visited at this point). -/
def crawlPage (maxDepth : ℕ) (keywords : List String) (visited : List String)
    (fetch : String → Option PageData) (url : String) (depth : ℕ) : CrawlResult :=
  match fetch url with
  | none =>
    { url := url, depth := depth, title := none, content := none, links := [],
      matchedKeywords := [], error := some ("Empty response from " ++ url) }
  | some pg =>
    { url := url, depth := depth, title := some pg.title,
      content := some (pg.text.take 5000),
      links := if depth < maxDepth
               then pg.links.filter (fun l => decide (l ∉ visited)) else [],
      matchedKeywords := checkKeywords keywords pg.textLower,
      error := none }

/-- Mutable state of the sequential crawl loop: `visited_urls`,
`queued_urls` and `results`. -/
structure WCState where
  visited : List String
  queue : List (String × ℕ)
  results : List CrawlResult

/-- Embeds the main loop of `WebCrawler.crawl` (crawler.py:396-427):
while the queue is non-empty and fewer than `max_pages` results exist, pop
the head; skip if visited; otherwise mark visited, crawl the page, append
its result, and enqueue the not-yet-visited discovered links at
`depth + 1` when the page succeeded and `depth < max_depth`.  The
`rate_limiter.wait_if_needed` call in the loop body only spends time and is
verified separately; it does not touch the visited/queue/results state. -/
def crawlLoop (cfg : CrawlerCfg) (fetch : String → Option PageData)
    (s : WCState) : WCState :=
  match hq : s.queue with
  | [] => s
  | (url, depth) :: rest =>
    if hp : s.results.length < cfg.maxPages then
      if url ∈ s.visited then
        crawlLoop cfg fetch { s with queue := rest }
      else
        let visited := url :: s.visited
        let r := crawlPage cfg.maxDepth cfg.keywords visited fetch url depth
        let queue2 :=
          if r.error = none ∧ depth < cfg.maxDepth then
            rest ++ (r.links.filter (fun l => decide (l ∉ visited))).map
              (fun l => (l, depth + 1))
          else rest
        crawlLoop cfg fetch
          { visited := visited, queue := queue2, results := s.results ++ [r] }
    else s
termination_by (cfg.maxPages - s.results.length, s.queue.length)
decreasing_by
  · simp only [hq]
    apply Prod.Lex.right
    simp
  · apply Prod.Lex.left
    simp only [List.length_append, List.length_cons, List.length_nil]
    omega

/-- Embeds `WebCrawler.crawl`: normalize the seed (the `urlparse`-based
`_normalize_url` is an oracle), run the (ineffective, see `pyTruthy`) seed
validation, then the main loop from the singleton queue. -/
def webCrawl (normalize : String → String) (fmtValid : String → Bool)
    (head : String → HeadOutcome) (fetch : String → Option PageData)
    (cfg : CrawlerCfg) (startUrl : String) : Except String (List CrawlResult) :=
  let s := normalize startUrl
  if pyTruthy (validateUrl fmtValid head true s) = false then
    Except.error ("Invalid start URL: " ++ s)
  else
    Except.ok (crawlLoop cfg fetch
      { visited := [], queue := [(s, 0)], results := [] }).results

/-! ## Relevance-aware engine (src/core/smart_crawler.py, SmartWebCrawler) -/

/-- Result record of `SmartCrawlResult` (the fields the loop reads). -/
structure SmartResult where
  url : String
  depth : ℕ
  title : Option String
  content : Option String
  links : List String
  relevantLinks : List (String × ℚ)
  error : Option String
deriving DecidableEq, Repr

/-- Page as seen by `SmartWebCrawler._process_page`: raw html, optional
title and the `(url, score)` pairs produced by `_extract_relevant_links`
(BeautifulSoup plus the relevance analyzer, modelled as an oracle; the
analyzer's scoring function itself is embedded separately below). -/
structure SmartPage where
  html : String
  title : Option String
  linksScored : List (String × ℚ)
deriving DecidableEq, Repr

/-- Embeds `SmartWebCrawler._process_page`: on a fetch/parse exception the
result records the error; otherwise it carries the html as content, the
scored links and their URLs. -/
def smartProcessPage (smartFetch : String → Option SmartPage)
    (url : String) (depth : ℕ) : SmartResult :=
  match smartFetch url with
  | none =>
    { url := url, depth := depth, title := none, content := none, links := [],
      relevantLinks := [], error := some ("Error processing " ++ url) }
  | some pg =>
    { url := url, depth := depth, title := pg.title, content := some pg.html,
      links := pg.linksScored.map (fun p => p.1),
      relevantLinks := pg.linksScored, error := none }

/-- Python truthiness of `result.content` (`None` and the empty string are
falsy). -/
def contentTruthy : Option String → Bool
  | none => false
  | some h => h ≠ ""

/-- Configuration of the relevance-aware engine. -/
structure SmartCfg where
  maxDepth : ℕ
  maxPages : ℕ
  minRelevanceScore : ℚ

/-- Worker of `_queue_relevant_links` (smart_crawler.py:319-333): walk the
scored links; queue an unvisited link with score ≥ `min_relevance_score`
at `depth + 1` — at the front of the deque when its score ≥ 0.7, at the
back otherwise — and stop as soon as 10 links have been queued. -/
def qrlGo (minScore : ℚ) (visited : List String) (depth : ℕ) :
    List (String × ℚ) → List (String × ℕ) → ℕ → List (String × ℕ)
  | [], q, _ => q
  | (link, score) :: rest, q, count =>
    if link ∉ visited ∧ minScore ≤ score then
      let q2 := if 7/10 ≤ score then (link, depth + 1) :: q
                else q ++ [(link, depth + 1)]
      if 10 ≤ count + 1 then q2
      else qrlGo minScore visited depth rest q2 (count + 1)
    else qrlGo minScore visited depth rest q count

/-- Embeds `SmartWebCrawler._queue_relevant_links` applied to the scored
links of the current page (the method re-extracts them from the page
content; the extraction is deterministic, so the page's scored links are
passed directly). -/
def queueRelevantLinks (minScore : ℚ) (visited : List String) (depth : ℕ)
    (lws : List (String × ℚ)) (queue : List (String × ℕ)) :
    List (String × ℕ) :=
  qrlGo minScore visited depth lws queue 0

/-- Mutable state of the smart crawl loop (`visited_urls`, `queued_urls`,
`results`, `stats.total_pages`, `seed_analyzed`).  The remaining statistics
counters do not influence control flow and are omitted. -/
structure SCState where
  visited : List String
  queue : List (String × ℕ)
  results : List SmartResult
  totalPages : ℕ
  seedAnalyzed : Bool

/-- Embeds the main loop of `SmartWebCrawler.crawl`
(smart_crawler.py:129-181): while the queue is non-empty and
`total_pages < max_pages`, pop the head; skip it when visited or deeper
than `max_depth`; otherwise mark visited, bump `total_pages`, process the
page and append its result; on success analyze the seed baseline once the
first truthy content arrives, and queue the relevant links when the page
has links and the seed is analyzed. -/
def smartLoop (cfg : SmartCfg) (smartFetch : String → Option SmartPage)
    (s : SCState) : SCState :=
  match hq : s.queue with
  | [] => s
  | (url, depth) :: rest =>
    if hp : s.totalPages < cfg.maxPages then
      if url ∈ s.visited ∨ cfg.maxDepth < depth then
        smartLoop cfg smartFetch { s with queue := rest }
      else
        let visited := url :: s.visited
        let r := smartProcessPage smartFetch url depth
        let seedA2 := if r.error = none
                      then s.seedAnalyzed || contentTruthy r.content
                      else s.seedAnalyzed
        let queue2 := if r.error = none ∧ r.links ≠ [] ∧ seedA2 = true then
                        queueRelevantLinks cfg.minRelevanceScore visited depth
                          r.relevantLinks rest
                      else rest
        smartLoop cfg smartFetch
          { visited := visited, queue := queue2,
            results := s.results ++ [r], totalPages := s.totalPages + 1,
            seedAnalyzed := seedA2 }
    else s
termination_by (cfg.maxPages - s.totalPages, s.queue.length)
decreasing_by
  · simp only [hq]
    apply Prod.Lex.right
    simp
  · apply Prod.Lex.left
    omega

/-- Embeds `SmartWebCrawler.crawl` up to its result list: the seed is
validated with correct tuple unpacking (`valid, normalized_url = ...`), a
`ValueError` propagates on failure, and on success the loop starts from the
validator's normalized URL at depth 0. -/
def smartCrawl (fmtValid : String → Bool) (head : String → HeadOutcome)
    (smartFetch : String → Option SmartPage) (cfg : SmartCfg)
    (startUrl : String) : Except String (List SmartResult) :=
  let vr := validateUrl fmtValid head true startUrl
  if vr.1 = false then Except.error ("Invalid start URL: " ++ startUrl)
  else
    Except.ok (smartLoop cfg smartFetch
      { visited := [], queue := [(vr.2, 0)], results := [],
        totalPages := 0, seedAnalyzed := false }).results

/-! ## Concurrent crawler (src/core/fast_crawler.py, FastCrawler) -/

/-- Embeds `FastCrawler._process_page` as executed by one worker thread:
`snapshot` is the (racy, lock-free) copy of the visited set that
`_extract_links_fast` reads while the page is processed; links are capped
at 50 per page (fast_crawler.py:206) and the content at 2000 characters. -/
def fcProcessPage (maxDepth : ℕ) (keywords : List String)
    (snapshot : List String) (fetch : String → Option PageData)
    (url : String) (depth : ℕ) : CrawlResult :=
  match fetch url with
  | none =>
    { url := url, depth := depth, title := none, content := none, links := [],
      matchedKeywords := [], error := some ("Empty response from " ++ url) }
  | some pg =>
    { url := url, depth := depth, title := some pg.title,
      content := some (pg.text.take 2000),
      links := if depth < maxDepth
               then (pg.links.filter (fun l => decide (l ∉ snapshot))).take 50
               else [],
      matchedKeywords := checkKeywords keywords pg.textLower,
      error := none }

/-- Embeds the link-requeuing of a completed future
(fast_crawler.py:340-344): when the page succeeded and `depth < max_depth`,
append each of the first 10 links that is not visited, while the queue
holds fewer than 1000 entries. -/
def fcEnqueue (cfg : CrawlerCfg) (visited : List String) (r : CrawlResult)
    (depth : ℕ) (queue : List (String × ℕ)) : List (String × ℕ) :=
  if r.error = none ∧ depth < cfg.maxDepth then
    (r.links.take 10).foldl
      (fun q l => if l ∉ visited ∧ q.length < 1000
                  then q ++ [(l, depth + 1)] else q) queue
  else queue

/-- Shared state of `FastCrawler.crawl_concurrent`: the visited set, queue
and results (guarded by `self._lock`) and the list of in-flight futures. -/
structure FCState where
  visited : List String
  queue : List (String × ℕ)
  futures : List (String × ℕ)
  results : List CrawlResult

/-- Interleaving semantics of `crawl_concurrent`
(fast_crawler.py:304-351).  `submitSkip`/`submit` model one iteration of
the submit loop: the head of the queue is popped and, atomically under the
lock, either dropped because it is already visited or marked visited and
handed to a worker (a new future).  `complete` models the completion of any
in-flight future: its result (computed against an arbitrary racy `snapshot`
of the visited set) is appended to `results` and its links are re-filtered
against the authoritative visited set under the lock and enqueued. -/
inductive FCStep (cfg : CrawlerCfg) (maxWorkers : ℕ)
    (fetch : String → Option PageData) : FCState → FCState → Prop
  | submitSkip (url : String) (depth : ℕ) (rest : List (String × ℕ))
      (s : FCState)
      (hq : s.queue = (url, depth) :: rest)
      (hres : s.results.length < cfg.maxPages)
      (hw : s.futures.length < maxWorkers)
      (hv : url ∈ s.visited) :
      FCStep cfg maxWorkers fetch s { s with queue := rest }
  | submit (url : String) (depth : ℕ) (rest : List (String × ℕ))
      (s : FCState)
      (hq : s.queue = (url, depth) :: rest)
      (hres : s.results.length < cfg.maxPages)
      (hw : s.futures.length < maxWorkers)
      (hv : url ∉ s.visited) :
      FCStep cfg maxWorkers fetch s
        { visited := url :: s.visited, queue := rest,
          futures := s.futures ++ [(url, depth)], results := s.results }
  | complete (url : String) (depth : ℕ) (fs1 fs2 : List (String × ℕ))
      (snapshot : List String) (s : FCState)
      (hf : s.futures = fs1 ++ (url, depth) :: fs2) :
      FCStep cfg maxWorkers fetch s
        { visited := s.visited,
          queue := fcEnqueue cfg s.visited
            (fcProcessPage cfg.maxDepth cfg.keywords snapshot fetch url depth)
            depth s.queue,
          futures := fs1 ++ fs2,
          results := s.results ++
            [fcProcessPage cfg.maxDepth cfg.keywords snapshot fetch url depth] }

/-- Initial state of `crawl_concurrent` after state reset and seeding. -/
def fcInit (seed : String) : FCState :=
  { visited := [], queue := [(seed, 0)], futures := [], results := [] }

end MDS

/-! ### Theorems for the rate limiter, adaptive limiter and backoff claims -/

namespace MDS

/-- Helper: `waitIfNeeded` leaves `domain_delays` (hence the required delay)
unchanged. -/
theorem waitIfNeeded_delay_unchanged (rl : RateLimiter) (domain : String)
    (now : ℚ) :
    getDelayForDomain (waitIfNeeded rl domain now).2 domain
      = getDelayForDomain rl domain := by
  by_cases h : now - rl.lastRequestTime domain < getDelayForDomain rl domain <;>
    simp only [waitIfNeeded, h, if_true, if_false] <;> rfl

/-- Helper: the timestamp recorded for `domain` by `waitIfNeeded` is
`now + wait`. -/
theorem waitIfNeeded_records (rl : RateLimiter) (domain : String) (now : ℚ) :
    ((waitIfNeeded rl domain now).2).lastRequestTime domain
      = now + (waitIfNeeded rl domain now).1 := by
  by_cases h : now - rl.lastRequestTime domain < getDelayForDomain rl domain <;>
    simp [waitIfNeeded, h]

/-- Helper: closed form of the wait returned by `waitIfNeeded`. -/
theorem waitIfNeeded_fst (rl : RateLimiter) (domain : String) (now : ℚ) :
    (waitIfNeeded rl domain now).1 =
      if now - rl.lastRequestTime domain < getDelayForDomain rl domain
      then getDelayForDomain rl domain - (now - rl.lastRequestTime domain)
      else 0 := by
  by_cases h : now - rl.lastRequestTime domain < getDelayForDomain rl domain <;>
    simp only [waitIfNeeded, h, if_true, if_false]

/-- C4: a call to `waitIfNeeded(domain)` at time `t1` blocks for exactly
`requiredDelay − elapsed` when the elapsed time since the recorded last
request is below `requiredDelay(domain)` (otherwise waits 0), records the
post-wait current time, and for any second call at `t2` issued after the
first returns, the two return instants are separated by at least
`requiredDelay(domain)` (the model's clock is exact, so ε = 0). -/
theorem C4_wait_if_needed_spacing (rl : RateLimiter) (domain : String)
    (t1 t2 : ℚ) (h2 : t1 + (waitIfNeeded rl domain t1).1 ≤ t2) :
    ((waitIfNeeded rl domain t1).1 =
      if t1 - rl.lastRequestTime domain < getDelayForDomain rl domain
      then getDelayForDomain rl domain - (t1 - rl.lastRequestTime domain)
      else 0) ∧
    ((waitIfNeeded rl domain t1).2.lastRequestTime domain
      = t1 + (waitIfNeeded rl domain t1).1) ∧
    getDelayForDomain rl domain ≤
      (t2 + (waitIfNeeded (waitIfNeeded rl domain t1).2 domain t2).1)
        - (t1 + (waitIfNeeded rl domain t1).1) := by
  refine ⟨waitIfNeeded_fst rl domain t1, waitIfNeeded_records rl domain t1, ?_⟩
  have hrec := waitIfNeeded_records rl domain t1
  have hdel := waitIfNeeded_delay_unchanged rl domain t1
  rw [waitIfNeeded_fst (waitIfNeeded rl domain t1).2 domain t2, hdel, hrec]
  split_ifs with h
  · linarith
  · linarith [not_lt.mp h]

/-- A fresh `RateLimiter(default_delay=1.0)` used to witness the rate-limiter
claim on concrete inputs. -/
def sampleRL : RateLimiter :=
  { defaultDelay := 1, domainDelays := [], lastRequestTime := fun _ => 0 }

/-- Witness for C4: concrete run on `sampleRL` with `t1 = 5`, `t2 = 26/5`. -/
theorem C4_wait_if_needed_spacing_witness :
    getDelayForDomain sampleRL "example.com" ≤
      (26/5 + (waitIfNeeded (waitIfNeeded sampleRL "example.com" 5).2
          "example.com" (26/5)).1)
        - (5 + (waitIfNeeded sampleRL "example.com" 5).1) :=
  (C4_wait_if_needed_spacing sampleRL "example.com" 5 (26/5)
    (by norm_num [waitIfNeeded, sampleRL, getDelayForDomain, lookupQ])).2.2

/-- Helper: looking up the key just written by `updateAssoc` yields the new
value (first branch: the key was present and is overwritten in place). -/
theorem lookup_map_overwrite (l : List (String × ℚ)) (domain : String) (v : ℚ)
    (h : (lookupQ domain l).isSome) :
    lookupQ domain (l.map (fun p => if p.1 = domain then (domain, v) else p))
      = some v := by
  induction l with
  | nil => simp [lookupQ] at h
  | cons hd tl ih =>
    obtain ⟨k, x⟩ := hd
    by_cases hk : k = domain
    · subst hk
      rw [List.map_cons, if_pos rfl]
      simp [lookupQ]
    · simp only [lookupQ, if_neg hk] at h
      rw [List.map_cons, if_neg hk]
      simp only [lookupQ, if_neg hk]
      exact ih h

/-- Helper: looking up a key appended at the end of a list that did not
contain it (second branch of `updateAssoc`). -/
theorem lookup_append_new (l : List (String × ℚ)) (domain : String) (v : ℚ)
    (h : lookupQ domain l = none) :
    lookupQ domain (l ++ [(domain, v)]) = some v := by
  induction l with
  | nil => simp [lookupQ]
  | cons hd tl ih =>
    obtain ⟨k, x⟩ := hd
    by_cases hk : k = domain
    · simp [lookupQ, hk] at h
    · simp only [lookupQ, if_neg hk] at h
      simp only [List.cons_append, lookupQ, if_neg hk]
      exact ih h

/-- Helper: `updateAssoc` makes the written binding visible to lookup. -/
theorem lookup_updateAssoc (l : List (String × ℚ)) (domain : String) (v : ℚ) :
    lookupQ domain (updateAssoc l domain v) = some v := by
  unfold updateAssoc
  by_cases h : (lookupQ domain l).isSome
  · rw [if_pos h]
    exact lookup_map_overwrite l domain v h
  · rw [if_neg h]
    exact lookup_append_new l domain v (Option.not_isSome_iff_eq_none.mp h)

/-- C9 counterexample: on a fresh adaptive limiter, recording a single
non-429 failure (HTTP 500) leaves the domain's delay unchanged at 1, so a
recorded failure does not always increase the delay. -/
theorem C9_counterexample_first_error_no_increase :
    adaptGetDelay (recordError freshAdaptive "example.com" (some 500))
        "example.com" = 1 ∧
    adaptGetDelay freshAdaptive "example.com" = 1 ∧
    ¬ (adaptGetDelay freshAdaptive "example.com" <
        adaptGetDelay (recordError freshAdaptive "example.com" (some 500))
          "example.com") := by
  refine ⟨rfl, rfl, ?_⟩
  have h1 : adaptGetDelay (recordError freshAdaptive "example.com" (some 500))
      "example.com" = 1 := rfl
  have h2 : adaptGetDelay freshAdaptive "example.com" = 1 := rfl
  rw [h1, h2]
  norm_num

/-- C9 (amended): every recorded failure resets the domain's
consecutive-success counter to zero; the delay is multiplied by the backoff
factor (capped at `maxDelay`) exactly when the failure is an HTTP 429 or it
is the third consecutive error, which also resets the error counter;
otherwise the delay is unchanged and the error counter increments. -/
theorem C9_record_error_adaptive (st : AdaptiveRL) (domain : String)
    (status : Option ℕ) :
    (recordError st domain status).successCount domain = 0 ∧
    ((status = some 429 ∨ 3 ≤ st.errorCount domain + 1) →
      adaptGetDelay (recordError st domain status) domain
          = min st.maxDelay (adaptGetDelay st domain * st.backoffFactor) ∧
      (recordError st domain status).errorCount domain = 0) ∧
    (¬ (status = some 429 ∨ 3 ≤ st.errorCount domain + 1) →
      adaptGetDelay (recordError st domain status) domain
          = adaptGetDelay st domain ∧
      (recordError st domain status).errorCount domain
          = st.errorCount domain + 1) := by
  by_cases hc : status = some 429 ∨ 3 ≤ st.errorCount domain + 1
  · refine ⟨?_, fun _ => ⟨?_, ?_⟩, fun hn => absurd hc hn⟩
    · simp only [recordError]
      rw [if_pos hc]
      simp
    · simp only [recordError]
      rw [if_pos hc]
      simp only [adaptGetDelay, lookup_updateAssoc]
    · simp only [recordError]
      rw [if_pos hc]
      simp
  · refine ⟨?_, fun hy => absurd hy hc, fun _ => ⟨?_, ?_⟩⟩
    · simp only [recordError]
      rw [if_neg hc]
      simp
    · simp only [recordError]
      rw [if_neg hc]
      simp [adaptGetDelay]
    · simp only [recordError]
      rw [if_neg hc]
      simp

/-- Witness for C9: a 429 failure on a fresh limiter doubles the delay from
1 to 2 (still below the 10-second ceiling) and zeroes both counters. -/
theorem C9_record_error_adaptive_witness :
    adaptGetDelay (recordError freshAdaptive "example.com" (some 429))
        "example.com"
      = min freshAdaptive.maxDelay
          (adaptGetDelay freshAdaptive "example.com"
            * freshAdaptive.backoffFactor) ∧
    (recordError freshAdaptive "example.com" (some 429)).errorCount
        "example.com" = 0 :=
  (C9_record_error_adaptive freshAdaptive "example.com" (some 429)).2.1
    (Or.inl rfl)

/-- C7 counterexample: with `baseDelay = 2`, `maxDelay = 1`,
`multiplier = 2`, attempt 0, the deterministic delay is 2 — not the claimed
`min(maxDelay, baseDelay·multiplier^attempt) = 1` — and it exceeds
`maxDelay`, because `get_delay` ends with `max(delay, self.base_delay)`. -/
theorem C7_counterexample_base_above_max :
    getDelayDet 2 1 2 0 0 = 2 ∧
    ¬ (getDelayDet 2 1 2 0 0 = min 1 (2 * 2 ^ (0 : ℕ))) ∧
    ¬ (getDelayDet 2 1 2 0 0 ≤ 1) := by
  refine ⟨?_, ?_, ?_⟩ <;> norm_num [getDelayDet, getDelay, min_def, max_def]

/-- C7 (amended): when additionally `baseDelay ≤ maxDelay` (as with the
defaults 1.0 and 300.0), the deterministic delay equals
`min(maxDelay, baseDelay·multiplier^attempt)`, is non-decreasing in the
attempt counter, and never exceeds `maxDelay`. -/
theorem C7_backoff_deterministic (b M m j : ℚ) (a a2 : ℕ)
    (hm : 1 ≤ m) (hb : 0 ≤ b) (hbM : b ≤ M) (ha : a ≤ a2) :
    getDelayDet b M m j a = min M (b * m ^ a) ∧
    getDelayDet b M m j a ≤ getDelayDet b M m j a2 ∧
    getDelayDet b M m j a ≤ M := by
  have hpow : ∀ n : ℕ, 1 ≤ m ^ n := by
    intro n
    calc (1 : ℚ) = m ^ 0 := (pow_zero m).symm
    _ ≤ m ^ n := pow_le_pow_right₀ hm (Nat.zero_le n)
  have hbase : ∀ n : ℕ, b ≤ b * m ^ n := fun n =>
    le_mul_of_one_le_right hb (hpow n)
  have hdet : ∀ n : ℕ, getDelayDet b M m j n = min M (b * m ^ n) := by
    intro n
    have hble : b ≤ min (b * m ^ n) M := le_min (hbase n) hbM
    by_cases hj : 0 < j
    · simp only [getDelayDet, getDelay, if_pos hj, mul_zero, add_zero, mul_one]
      rw [max_eq_left hble, min_comm (b * m ^ n) M]
    · simp only [getDelayDet, getDelay, if_neg hj, mul_one]
      rw [max_eq_left hble, min_comm (b * m ^ n) M]
  refine ⟨hdet a, ?_, ?_⟩
  · rw [hdet a, hdet a2]
    exact min_le_min le_rfl
      (mul_le_mul_of_nonneg_left (pow_le_pow_right₀ hm ha) hb)
  · rw [hdet a]
    exact min_le_left _ _
/-- Witness for C7: the source defaults `base_delay = 1.0`,
`max_delay = 300.0`, `multiplier = 2.0`, `jitter = 0.3` at attempts 0 ≤ 1. -/
theorem C7_backoff_deterministic_witness :
    getDelayDet 1 300 2 (3/10) 0 = min 300 (1 * 2 ^ (0 : ℕ)) ∧
    getDelayDet 1 300 2 (3/10) 0 ≤ getDelayDet 1 300 2 (3/10) 1 ∧
    getDelayDet 1 300 2 (3/10) 0 ≤ 300 :=
  C7_backoff_deterministic 1 300 2 (3/10) 0 1 (by norm_num) (by norm_num)
    (by norm_num) (by norm_num)

end MDS

/-! ### Crawl-engine lemmas and the dedup / budget / link-limit claims -/

namespace MDS

/-- Helper: `crawl_page` reports the URL it was asked to crawl. -/
theorem crawlPage_url (mD : ℕ) (kw : List String) (vis : List String)
    (fetch : String → Option PageData) (url : String) (depth : ℕ) :
    (crawlPage mD kw vis fetch url depth).url = url := by
  unfold crawlPage
  cases fetch url <;> rfl

/-- Helper: `crawl_page` reports the depth it was asked to crawl at. -/
theorem crawlPage_depth (mD : ℕ) (kw : List String) (vis : List String)
    (fetch : String → Option PageData) (url : String) (depth : ℕ) :
    (crawlPage mD kw vis fetch url depth).depth = depth := by
  unfold crawlPage
  cases fetch url <;> rfl

/-- Unfolding: the loop returns the state once the queue is empty. -/
theorem crawlLoop_eq_nil (cfg : CrawlerCfg) (fetch : String → Option PageData)
    (s : WCState) (h : s.queue = []) : crawlLoop cfg fetch s = s := by
  rw [crawlLoop]
  split
  · rfl
  · rename_i url depth rest hq
    rw [h] at hq
    cases hq

/-- Unfolding: the loop returns the state once the page budget is hit. -/
theorem crawlLoop_eq_stop (cfg : CrawlerCfg) (fetch : String → Option PageData)
    (s : WCState) (url : String) (depth : ℕ) (rest : List (String × ℕ))
    (hq : s.queue = (url, depth) :: rest)
    (hp : ¬ s.results.length < cfg.maxPages) : crawlLoop cfg fetch s = s := by
  rw [crawlLoop]
  split
  · rfl
  · rename_i u d r hq2
    rw [dif_neg hp]

/-- Unfolding: a visited head of the queue is dropped. -/
theorem crawlLoop_eq_skip (cfg : CrawlerCfg) (fetch : String → Option PageData)
    (s : WCState) (url : String) (depth : ℕ) (rest : List (String × ℕ))
    (hq : s.queue = (url, depth) :: rest)
    (hp : s.results.length < cfg.maxPages)
    (hv : url ∈ s.visited) :
    crawlLoop cfg fetch s = crawlLoop cfg fetch { s with queue := rest } := by
  rw [crawlLoop]
  split
  · rename_i hq2
    rw [hq] at hq2
    cases hq2
  · rename_i u d r hq2
    rw [hq] at hq2
    cases hq2
    rw [dif_pos hp, if_pos hv]

/-- Unfolding: an unvisited head is marked visited, crawled, recorded, and
its links enqueued. -/
theorem crawlLoop_eq_step (cfg : CrawlerCfg) (fetch : String → Option PageData)
    (s : WCState) (url : String) (depth : ℕ) (rest : List (String × ℕ))
    (hq : s.queue = (url, depth) :: rest)
    (hp : s.results.length < cfg.maxPages)
    (hv : url ∉ s.visited) :
    crawlLoop cfg fetch s = crawlLoop cfg fetch
      { visited := url :: s.visited,
        queue :=
          if (crawlPage cfg.maxDepth cfg.keywords (url :: s.visited) fetch url depth).error = none
              ∧ depth < cfg.maxDepth then
            rest ++ ((crawlPage cfg.maxDepth cfg.keywords (url :: s.visited) fetch url depth).links.filter
              (fun l => decide (l ∉ url :: s.visited))).map (fun l => (l, depth + 1))
          else rest,
        results := s.results ++
          [crawlPage cfg.maxDepth cfg.keywords (url :: s.visited) fetch url depth] } := by
  rw [crawlLoop]
  split
  · rename_i hq2
    rw [hq] at hq2
    cases hq2
  · rename_i u d r hq2
    rw [hq] at hq2
    cases hq2
    rw [dif_pos hp, if_neg hv]

/-- Loop invariant of the sequential crawler: result URLs are distinct and
visited, queued depths stay within `max_depth`, recorded depths do too,
and the result count respects `max_pages`. -/
def wcInv (cfg : CrawlerCfg) (s : WCState) : Prop :=
  ((s.results.map (fun r => r.url)).Nodup) ∧
  (∀ u ∈ s.results.map (fun r => r.url), u ∈ s.visited) ∧
  (∀ p ∈ s.queue, p.2 ≤ cfg.maxDepth) ∧
  (∀ r ∈ s.results, r.depth ≤ cfg.maxDepth) ∧
  s.results.length ≤ cfg.maxPages

/-- The sequential crawl loop preserves `wcInv`. -/
theorem crawlLoop_inv (cfg : CrawlerCfg) (fetch : String → Option PageData) :
    ∀ s : WCState, wcInv cfg s → wcInv cfg (crawlLoop cfg fetch s) := by
  refine crawlLoop.induct cfg fetch
    (fun s => wcInv cfg s → wcInv cfg (crawlLoop cfg fetch s)) ?_ ?_ ?_ ?_
  · intro x hq h
    rw [crawlLoop_eq_nil cfg fetch x hq]
    exact h
  · intro x url depth rest hq hp hv ih h
    rw [crawlLoop_eq_skip cfg fetch x url depth rest hq hp hv]
    obtain ⟨h1, h2, h3, h4, h5⟩ := h
    exact ih ⟨h1, h2,
      fun p hp2 => h3 p (by rw [hq]; exact List.mem_cons_of_mem _ hp2), h4, h5⟩
  · intro x url depth rest hq hp hv vis r q2 ih h
    rw [crawlLoop_eq_step cfg fetch x url depth rest hq hp hv]
    obtain ⟨h1, h2, h3, h4, h5⟩ := h
    have hurl := crawlPage_url cfg.maxDepth cfg.keywords (url :: x.visited) fetch url depth
    have hdep := crawlPage_depth cfg.maxDepth cfg.keywords (url :: x.visited) fetch url depth
    have hd : depth ≤ cfg.maxDepth :=
      h3 (url, depth) (by rw [hq]; exact List.mem_cons_self _ _)
    apply ih
    refine ⟨?_, ?_, ?_, ?_, ?_⟩
    · show ((x.results ++ [crawlPage cfg.maxDepth cfg.keywords (url :: x.visited)
          fetch url depth]).map (fun t => t.url)).Nodup
      rw [List.map_append, List.map_singleton, hurl]
      rw [List.nodup_append]
      refine ⟨h1, List.nodup_singleton url, ?_⟩
      intro a ha hb
      rw [List.mem_singleton] at hb
      subst hb
      exact hv (h2 a ha)
    · show ∀ u ∈ (x.results ++ [crawlPage cfg.maxDepth cfg.keywords
          (url :: x.visited) fetch url depth]).map (fun t => t.url),
          u ∈ url :: x.visited
      intro u hu
      rw [List.map_append, List.map_singleton, hurl, List.mem_append,
        List.mem_singleton] at hu
      rcases hu with hu | hu
      · exact List.mem_cons_of_mem _ (h2 u hu)
      · subst hu
        exact List.mem_cons_self _ _
    · show ∀ p ∈ (if (crawlPage cfg.maxDepth cfg.keywords (url :: x.visited)
            fetch url depth).error = none ∧ depth < cfg.maxDepth then
          rest ++ ((crawlPage cfg.maxDepth cfg.keywords (url :: x.visited)
            fetch url depth).links.filter
              (fun l => decide (l ∉ url :: x.visited))).map
                (fun l => (l, depth + 1))
        else rest), p.2 ≤ cfg.maxDepth
      intro p hp2
      by_cases hcond : (crawlPage cfg.maxDepth cfg.keywords (url :: x.visited)
          fetch url depth).error = none ∧ depth < cfg.maxDepth
      · rw [if_pos hcond, List.mem_append] at hp2
        rcases hp2 with hp2 | hp2
        · exact h3 p (by rw [hq]; exact List.mem_cons_of_mem _ hp2)
        · obtain ⟨l, _, hl2⟩ := List.mem_map.mp hp2
          subst hl2
          simpa using hcond.2
      · rw [if_neg hcond] at hp2
        exact h3 p (by rw [hq]; exact List.mem_cons_of_mem _ hp2)
    · show ∀ t ∈ x.results ++ [crawlPage cfg.maxDepth cfg.keywords
          (url :: x.visited) fetch url depth], t.depth ≤ cfg.maxDepth
      intro t ht
      rw [List.mem_append, List.mem_singleton] at ht
      rcases ht with ht | ht
      · exact h4 t ht
      · subst ht
        rw [hdep]
        exact hd
    · show (x.results ++ [crawlPage cfg.maxDepth cfg.keywords
          (url :: x.visited) fetch url depth]).length ≤ cfg.maxPages
      rw [List.length_append, List.length_singleton]
      omega
  · intro x url depth rest hq hp h
    rw [crawlLoop_eq_stop cfg fetch x url depth rest hq hp]
    exact h

/-- Helper: `_process_page` of the smart crawler keeps the depth. -/
theorem smartProcessPage_depth (f : String → Option SmartPage) (url : String)
    (depth : ℕ) : (smartProcessPage f url depth).depth = depth := by
  unfold smartProcessPage
  cases f url <;> rfl

/-- Unfolding: the smart loop returns the state once the queue is empty. -/
theorem smartLoop_eq_nil (cfg : SmartCfg) (f : String → Option SmartPage)
    (s : SCState) (h : s.queue = []) : smartLoop cfg f s = s := by
  rw [smartLoop]
  split
  · rfl
  · rename_i url depth rest hq
    rw [h] at hq
    cases hq

/-- Unfolding: the smart loop stops at the page budget. -/
theorem smartLoop_eq_stop (cfg : SmartCfg) (f : String → Option SmartPage)
    (s : SCState) (url : String) (depth : ℕ) (rest : List (String × ℕ))
    (hq : s.queue = (url, depth) :: rest)
    (hp : ¬ s.totalPages < cfg.maxPages) : smartLoop cfg f s = s := by
  rw [smartLoop]
  split
  · rfl
  · rename_i u d r hq2
    rw [dif_neg hp]

/-- Unfolding: the smart loop drops a visited or too-deep queue head. -/
theorem smartLoop_eq_skip (cfg : SmartCfg) (f : String → Option SmartPage)
    (s : SCState) (url : String) (depth : ℕ) (rest : List (String × ℕ))
    (hq : s.queue = (url, depth) :: rest)
    (hp : s.totalPages < cfg.maxPages)
    (hv : url ∈ s.visited ∨ cfg.maxDepth < depth) :
    smartLoop cfg f s = smartLoop cfg f { s with queue := rest } := by
  rw [smartLoop]
  split
  · rename_i hq2
    rw [hq] at hq2
    cases hq2
  · rename_i u d r hq2
    rw [hq] at hq2
    cases hq2
    rw [dif_pos hp, if_pos hv]

/-- Unfolding: the smart loop processes an acceptable queue head. -/
theorem smartLoop_eq_step (cfg : SmartCfg) (f : String → Option SmartPage)
    (s : SCState) (url : String) (depth : ℕ) (rest : List (String × ℕ))
    (hq : s.queue = (url, depth) :: rest)
    (hp : s.totalPages < cfg.maxPages)
    (hv : ¬ (url ∈ s.visited ∨ cfg.maxDepth < depth)) :
    smartLoop cfg f s = smartLoop cfg f
      { visited := url :: s.visited,
        queue :=
          if (smartProcessPage f url depth).error = none
              ∧ (smartProcessPage f url depth).links ≠ []
              ∧ (if (smartProcessPage f url depth).error = none
                 then s.seedAnalyzed || contentTruthy (smartProcessPage f url depth).content
                 else s.seedAnalyzed) = true then
            queueRelevantLinks cfg.minRelevanceScore (url :: s.visited) depth
              (smartProcessPage f url depth).relevantLinks rest
          else rest,
        results := s.results ++ [smartProcessPage f url depth],
        totalPages := s.totalPages + 1,
        seedAnalyzed :=
          if (smartProcessPage f url depth).error = none
          then s.seedAnalyzed || contentTruthy (smartProcessPage f url depth).content
          else s.seedAnalyzed } := by
  rw [smartLoop]
  split
  · rename_i hq2
    rw [hq] at hq2
    cases hq2
  · rename_i u d r hq2
    rw [hq] at hq2
    cases hq2
    rw [dif_pos hp, if_neg hv]

/-- Loop invariant of the smart crawler: recorded depths respect
`max_depth` and the result count matches `total_pages`, itself within
`max_pages`. -/
def scInv (cfg : SmartCfg) (s : SCState) : Prop :=
  (∀ t ∈ s.results, t.depth ≤ cfg.maxDepth) ∧
  s.results.length = s.totalPages ∧
  s.totalPages ≤ cfg.maxPages

/-- The smart crawl loop preserves `scInv`. -/
theorem smartLoop_inv (cfg : SmartCfg) (f : String → Option SmartPage) :
    ∀ s : SCState, scInv cfg s → scInv cfg (smartLoop cfg f s) := by
  refine smartLoop.induct cfg f
    (fun s => scInv cfg s → scInv cfg (smartLoop cfg f s)) ?_ ?_ ?_ ?_
  · intro x hq h
    rw [smartLoop_eq_nil cfg f x hq]
    exact h
  · intro x url depth rest hq hp hv ih h
    rw [smartLoop_eq_skip cfg f x url depth rest hq hp hv]
    exact ih h
  · intro x url depth rest hq hp hv vis r seedA2 q2 ih h
    rw [smartLoop_eq_step cfg f x url depth rest hq hp hv]
    obtain ⟨h1, h2, h3⟩ := h
    apply ih
    refine ⟨?_, ?_, ?_⟩
    · show ∀ t ∈ x.results ++ [smartProcessPage f url depth],
        t.depth ≤ cfg.maxDepth
      intro t ht
      rw [List.mem_append, List.mem_singleton] at ht
      rcases ht with ht | ht
      · exact h1 t ht
      · subst ht
        rw [smartProcessPage_depth]
        exact le_of_not_lt (fun hlt => hv (Or.inr hlt))
    · show (x.results ++ [smartProcessPage f url depth]).length = x.totalPages + 1
      rw [List.length_append, List.length_singleton, h2]
    · show x.totalPages + 1 ≤ cfg.maxPages
      omega
  · intro x url depth rest hq hp h
    rw [smartLoop_eq_stop cfg f x url depth rest hq hp]
    exact h

/-- Helper: `_process_page` of the fast crawler reports its URL. -/
theorem fcProcessPage_url (mD : ℕ) (kw snap : List String)
    (fetch : String → Option PageData) (url : String) (depth : ℕ) :
    (fcProcessPage mD kw snap fetch url depth).url = url := by
  unfold fcProcessPage
  cases fetch url <;> rfl

/-- URLs owned by a state of the concurrent crawler: one per produced
result plus one per in-flight future. -/
def fcUrls (s : FCState) : List String :=
  s.results.map (fun r => r.url) ++ s.futures.map (fun f => f.1)

/-- Invariant of the concurrent crawler: the owned URLs are pairwise
distinct and all of them are marked visited. -/
def fcInv (s : FCState) : Prop :=
  (fcUrls s).Nodup ∧ ∀ u ∈ fcUrls s, u ∈ s.visited

/-- Every interleaving step of `crawl_concurrent` preserves `fcInv`: the
atomic check-and-mark of `visited` guarantees a submitted URL is fresh, and
completing a future moves its URL from the in-flight list to the results (a
permutation of the owned URLs). -/
theorem fcStep_inv (cfg : CrawlerCfg) (mw : ℕ)
    (fetch : String → Option PageData) (s s2 : FCState)
    (hstep : FCStep cfg mw fetch s s2) (h : fcInv s) : fcInv s2 := by
  obtain ⟨h1, h2⟩ := h
  cases hstep with
  | submitSkip url depth rest s hq hres hw hv =>
    exact ⟨h1, h2⟩
  | submit url depth rest s hq hres hw hv =>
    constructor
    · show (s.results.map (fun r => r.url) ++
        (s.futures ++ [(url, depth)]).map (fun f => f.1)).Nodup
      rw [List.map_append, List.map_singleton, ← List.append_assoc,
        List.nodup_append]
      refine ⟨h1, List.nodup_singleton url, ?_⟩
      intro a ha hb
      rw [List.mem_singleton] at hb
      subst hb
      exact hv (h2 a ha)
    · show ∀ u ∈ s.results.map (fun r => r.url) ++
        (s.futures ++ [(url, depth)]).map (fun f => f.1), u ∈ url :: s.visited
      intro u hu
      rw [List.map_append, List.map_singleton, ← List.append_assoc,
        List.mem_append, List.mem_singleton] at hu
      rcases hu with hu | hu
      · exact List.mem_cons_of_mem _ (h2 u hu)
      · subst hu
        exact List.mem_cons_self _ _
  | complete url depth fs1 fs2 snapshot s hf =>
    have hperm : List.Perm (fcUrls s)
        ((s.results ++ [fcProcessPage cfg.maxDepth cfg.keywords snapshot
            fetch url depth]).map (fun r => r.url) ++
          (fs1 ++ fs2).map (fun f => f.1)) := by
      rw [fcUrls, hf]
      simp only [List.map_append, List.map_cons, List.map_singleton,
        List.map_nil, fcProcessPage_url]
      rw [List.append_assoc]
      exact List.Perm.append_left _ List.perm_middle
    constructor
    · show ((s.results ++ [fcProcessPage cfg.maxDepth cfg.keywords snapshot
          fetch url depth]).map (fun r => r.url) ++
          (fs1 ++ fs2).map (fun f => f.1)).Nodup
      exact hperm.nodup h1
    · show ∀ u ∈ (s.results ++ [fcProcessPage cfg.maxDepth cfg.keywords
          snapshot fetch url depth]).map (fun r => r.url) ++
          (fs1 ++ fs2).map (fun f => f.1), u ∈ s.visited
      intro u hu
      exact h2 u (hperm.mem_iff.mpr hu)

/-- `fcInv` holds in every state reachable from a state satisfying it. -/
theorem fcReach_inv (cfg : CrawlerCfg) (mw : ℕ)
    (fetch : String → Option PageData) (s s2 : FCState)
    (h : Relation.ReflTransGen (FCStep cfg mw fetch) s s2) (h0 : fcInv s) :
    fcInv s2 := by
  induction h with
  | refl => exact h0
  | tail hab hbc ih => exact fcStep_inv cfg mw fetch _ _ hbc ih

/-- Helper: the worker of `_queue_relevant_links` adds at most `10 − count`
entries when it starts from a count below 10. -/
theorem qrlGo_length (minScore : ℚ) (visited : List String) (depth : ℕ) :
    ∀ (lws : List (String × ℚ)) (q : List (String × ℕ)) (count : ℕ),
      count < 10 →
      (qrlGo minScore visited depth lws q count).length ≤
        q.length + (10 - count) := by
  intro lws
  induction lws with
  | nil =>
    intro q count hc
    rw [qrlGo]
    omega
  | cons hd tl ih =>
    intro q count hc
    obtain ⟨link, score⟩ := hd
    rw [qrlGo]
    by_cases hok : link ∉ visited ∧ minScore ≤ score
    · rw [if_pos hok]
      have hlen : ∀ q2 : List (String × ℕ),
          (if 7/10 ≤ score then (link, depth + 1) :: q
           else q ++ [(link, depth + 1)]).length = q.length + 1 := by
        intro q2
        by_cases hs : (7 : ℚ)/10 ≤ score
        · rw [if_pos hs]
          simp
        · rw [if_neg hs]
          simp
      by_cases hcnt : 10 ≤ count + 1
      · rw [if_pos hcnt]
        rw [hlen q]
        omega
      · rw [if_neg hcnt]
        have := ih (if 7/10 ≤ score then (link, depth + 1) :: q
           else q ++ [(link, depth + 1)]) (count + 1) (by omega)
        rw [hlen q] at this
        omega
    · rw [if_neg hok]
      exact ih q count hc

/-- C2: the claim says a malformed seed makes `WebCrawler.crawl` raise a
fatal validation error; in the code `if not self.validator.validate_url(...)`
tests the truthiness of the returned `(bool, message)` tuple — always truthy
— so the `CrawlError` raise is unreachable and every crawl proceeds, even on
the empty seed the validator classifies as invalid. -/
theorem C2_invalid_seed_not_fatal :
    validateUrl (fun _ => true) (fun _ => HeadOutcome.resp 200) true "" =
      (false, "URL cannot be empty") ∧
    ∀ (normalize : String → String) (fv : String → Bool)
      (hd : String → HeadOutcome) (fetch : String → Option PageData)
      (cfg : CrawlerCfg) (seed : String),
      (webCrawl normalize fv hd fetch cfg seed).isOk = true := by
  constructor
  · rfl
  · intro normalize fv hd fetch cfg seed
    simp [webCrawl, pyTruthy, Except.isOk, Except.toBool]

/-- C1: in a sequential `WebCrawler.crawl` run the returned results carry
pairwise-distinct normalized URLs, and in the concurrent `FastCrawler`
every state reachable from the seeded initial state keeps the URLs of
produced results and in-flight fetches pairwise distinct — so each URL is
fetched at most once and yields at most one `CrawlResult`, also when two
workers discover the same URL before either fetches it. -/
theorem C1_crawl_dedup :
    (∀ (normalize : String → String) (fv : String → Bool)
       (hd : String → HeadOutcome) (fetch : String → Option PageData)
       (cfg : CrawlerCfg) (seed : String) (rs : List CrawlResult),
       webCrawl normalize fv hd fetch cfg seed = Except.ok rs →
       (rs.map (fun r => r.url)).Nodup) ∧
    (∀ (cfg : CrawlerCfg) (mw : ℕ) (fetch : String → Option PageData)
       (seed : String) (s : FCState),
       Relation.ReflTransGen (FCStep cfg mw fetch) (fcInit seed) s →
       (s.results.map (fun r => r.url) ++ s.futures.map (fun f => f.1)).Nodup) := by
  constructor
  · intro normalize fv hd fetch cfg seed rs hok
    simp only [webCrawl, pyTruthy] at hok
    rw [if_neg (by simp)] at hok
    have hrs := (Except.ok.injEq _ _).mp hok
    subst hrs
    have h := crawlLoop_inv cfg fetch
      { visited := [], queue := [(normalize seed, 0)], results := [] }
      ⟨by simp, by simp, by simp, by simp, by simp⟩
    exact h.1
  · intro cfg mw fetch seed s hreach
    have h0 : fcInv (fcInit seed) := by
      constructor
      · simp [fcUrls, fcInit]
      · simp [fcUrls, fcInit]
    exact (fcReach_inv cfg mw fetch (fcInit seed) s hreach h0).1

/-- C3: in both the basic crawler and the relevance-aware crawler, a run
never returns a result deeper than `max_depth` and never returns more than
`max_pages` results. -/
theorem C3_budget_respected :
    (∀ (normalize : String → String) (fv : String → Bool)
       (hd : String → HeadOutcome) (fetch : String → Option PageData)
       (cfg : CrawlerCfg) (seed : String) (rs : List CrawlResult),
       webCrawl normalize fv hd fetch cfg seed = Except.ok rs →
       (∀ r ∈ rs, r.depth ≤ cfg.maxDepth) ∧ rs.length ≤ cfg.maxPages) ∧
    (∀ (fv : String → Bool) (hd : String → HeadOutcome)
       (sf : String → Option SmartPage) (cfg : SmartCfg) (seed : String)
       (rs : List SmartResult),
       smartCrawl fv hd sf cfg seed = Except.ok rs →
       (∀ r ∈ rs, r.depth ≤ cfg.maxDepth) ∧ rs.length ≤ cfg.maxPages) := by
  constructor
  · intro normalize fv hd fetch cfg seed rs hok
    simp only [webCrawl, pyTruthy] at hok
    rw [if_neg (by simp)] at hok
    have hrs := (Except.ok.injEq _ _).mp hok
    subst hrs
    have h := crawlLoop_inv cfg fetch
      { visited := [], queue := [(normalize seed, 0)], results := [] }
      ⟨by simp, by simp, by simp, by simp, by simp⟩
    exact ⟨h.2.2.2.1, h.2.2.2.2⟩
  · intro fv hd sf cfg seed rs hok
    simp only [smartCrawl] at hok
    by_cases hval : (validateUrl fv hd true seed).1 = false
    · rw [if_pos hval] at hok
      cases hok
    · rw [if_neg hval] at hok
      have hrs := (Except.ok.injEq _ _).mp hok
      subst hrs
      have h := smartLoop_inv cfg sf
        { visited := [], queue := [((validateUrl fv hd true seed).2, 0)],
          results := [], totalPages := 0, seedAnalyzed := false }
        ⟨by simp, by simp, by simp⟩
      exact ⟨h.1, by rw [h.2.1]; exact h.2.2⟩

/-- C10: `_queue_relevant_links` enqueues at most 10 links from one page,
whatever the scored-link list, the visited set and the current frontier. -/
theorem C10_links_per_page_limit (minScore : ℚ) (visited : List String)
    (depth : ℕ) (lws : List (String × ℚ)) (q : List (String × ℕ)) :
    (queueRelevantLinks minScore visited depth lws q).length ≤
      q.length + 10 := by
  have := qrlGo_length minScore visited depth lws q 0 (by omega)
  simpa [queueRelevantLinks] using this

end MDS

/-! ### Concrete runs witnessing the dedup and budget claims -/

namespace MDS

/-- A fetch oracle whose every page links to `"p"` twice. -/
def wFetch : String → Option PageData :=
  fun _ => some { title := "t", text := "", textLower := "", links := ["p", "p"] }

/-- A `FastCrawler(max_depth=1, max_pages=10)` configuration. -/
def wCfg : CrawlerCfg := { maxDepth := 1, maxPages := 10, keywords := [] }

/-- The result a worker computes for the seed page. -/
def wRes : CrawlResult := fcProcessPage wCfg.maxDepth wCfg.keywords [] wFetch "s" 0

/-- Trace state: the seed was submitted to a worker. -/
def fcA : FCState :=
  { visited := ["s"], queue := [], futures := [("s", 0)], results := [] }

/-- Trace state: the seed page completed; `"p"` was discovered twice and
enqueued twice. -/
def fcB : FCState :=
  { visited := ["s"], queue := [("p", 1), ("p", 1)], futures := [],
    results := [wRes] }

/-- Trace state: the first copy of `"p"` was submitted and marked visited. -/
def fcC : FCState :=
  { visited := ["p", "s"], queue := [("p", 1)], futures := [("p", 1)],
    results := [wRes] }

/-- Trace state: the second copy of `"p"` was dropped by the visited check. -/
def fcD : FCState :=
  { visited := ["p", "s"], queue := [], futures := [("p", 1)],
    results := [wRes] }

/-- Step: submitting the seed. -/
theorem fcStepA : FCStep wCfg 2 wFetch (fcInit "s") fcA :=
  FCStep.submit "s" 0 [] (fcInit "s") rfl (by decide) (by decide) (by decide)

/-- Step: completing the seed page. -/
theorem fcStepB : FCStep wCfg 2 wFetch fcA fcB :=
  FCStep.complete "s" 0 [] [] [] fcA rfl

/-- Step: submitting the first discovered copy of `"p"`. -/
theorem fcStepC : FCStep wCfg 2 wFetch fcB fcC :=
  FCStep.submit "p" 1 [("p", 1)] fcB rfl (by decide) (by decide) (by decide)

/-- Step: the duplicate discovery of `"p"` is suppressed. -/
theorem fcStepD : FCStep wCfg 2 wFetch fcC fcD :=
  FCStep.submitSkip "p" 1 [] fcC rfl (by decide) (by decide) (by decide)

/-- Witness for C1: a sequential run on a zero-page budget, and a concrete
concurrent trace in which `"p"` is discovered twice before being fetched yet
the reachable state still owns pairwise-distinct URLs. -/
theorem C1_crawl_dedup_witness :
    (([] : List CrawlResult).map (fun r => r.url)).Nodup ∧
    (fcD.results.map (fun r => r.url) ++ fcD.futures.map (fun f => f.1)).Nodup := by
  constructor
  · exact C1_crawl_dedup.1 (fun u => u) (fun _ => true)
      (fun _ => HeadOutcome.resp 200) wFetch
      { maxDepth := 3, maxPages := 0, keywords := [] } "s" []
      (by simp [webCrawl, pyTruthy, crawlLoop])
  · exact C1_crawl_dedup.2 wCfg 2 wFetch "s" fcD
      (Relation.ReflTransGen.tail
        (Relation.ReflTransGen.tail
          (Relation.ReflTransGen.tail
            (Relation.ReflTransGen.tail Relation.ReflTransGen.refl fcStepA)
            fcStepB)
          fcStepC)
        fcStepD)

/-- Witness for C3: concrete zero-budget runs of both engines. -/
theorem C3_budget_respected_witness :
    ((∀ r ∈ ([] : List CrawlResult), r.depth ≤ 3) ∧
      ([] : List CrawlResult).length ≤ 0) ∧
    ((∀ r ∈ ([] : List SmartResult), r.depth ≤ 3) ∧
      ([] : List SmartResult).length ≤ 0) := by
  constructor
  · exact C3_budget_respected.1 (fun u => u) (fun _ => true)
      (fun _ => HeadOutcome.resp 200) wFetch
      { maxDepth := 3, maxPages := 0, keywords := [] } "s" []
      (by simp [webCrawl, pyTruthy, crawlLoop])
  · exact C3_budget_respected.2 (fun _ => true) (fun _ => HeadOutcome.resp 200)
      (fun _ => none) { maxDepth := 3, maxPages := 0, minRelevanceScore := 0 }
      "https://example.com" []
      (by
        have hval : validateUrl (fun _ => true)
            (fun _ => HeadOutcome.resp 200) true "https://example.com" =
            (true, "https://example.com") := rfl
        simp [smartCrawl, hval, smartLoop])

end MDS

/-! ## Response cache (src/utils/cache.py, Cache) -/

namespace MDS

/-- Generic first-match association lookup (Python dict read). -/
def lookupV {β : Type} (k : String) : List (String × β) → Option β
  | [] => none
  | (k2, v) :: rest => if k2 = k then some v else lookupV k rest

/-- Python dict write: overwrite in place when the key exists, else append. -/
def updateV {β : Type} (k : String) (v : β) (l : List (String × β)) :
    List (String × β) :=
  if (lookupV k l).isSome then
    l.map (fun p => if p.1 = k then (k, v) else p)
  else
    l ++ [(k, v)]

/-- Python dict `pop(k)`: drop the binding of `k`. -/
def removeV {β : Type} (k : String) (l : List (String × β)) :
    List (String × β) :=
  l.filter (fun p => decide (p.1 ≠ k))

/-- Metadata entry of one cache slot (`created_at`, `expires_at`,
`size`). -/
structure CacheEntry where
  createdAt : ℚ
  expiresAt : ℚ
  size : ℚ
deriving DecidableEq, Repr

/-- State of the `Cache` object: the metadata `entries` dict, the `.pkl`
files on disk keyed by the same cache keys, the running `total_size`, and
the configured ceiling and default TTL.  `α` is the payload type; file
writes are assumed to succeed (the source logs and skips on I/O errors). -/
structure CacheState (α : Type) where
  entries : List (String × CacheEntry)
  files : List (String × α)
  totalSize : ℚ
  maxSizeBytes : ℚ
  defaultTtl : ℚ

/-- Embeds `Cache.delete`: when the key is known, unlink the file, pop the
metadata entry and subtract its size. -/
def cacheDelete {α : Type} (kg : String → Option String → String)
    (st : CacheState α) (url : String) (params : Option String) :
    CacheState α :=
  let key := kg url params
  match lookupV key st.entries with
  | none => st
  | some e =>
    { st with
      entries := removeV key st.entries,
      files := removeV key st.files,
      totalSize := st.totalSize - e.size }

/-- Embeds `Cache.get` at time `now`: a key missing from the metadata is a
miss; an entry with `now > expires_at` is deleted and reported as a miss;
otherwise the pickled payload is returned (a missing or unreadable file
also deletes the entry and misses).  `kg` is the sha256 key-derivation
oracle of `_generate_key`. -/
def cacheGet {α : Type} (kg : String → Option String → String)
    (st : CacheState α) (url : String) (params : Option String) (now : ℚ) :
    Option α × CacheState α :=
  let key := kg url params
  match lookupV key st.entries with
  | none => (none, st)
  | some e =>
    if e.expiresAt < now then (none, cacheDelete kg st url params)
    else
      match lookupV key st.files with
      | some v => (some v, st)
      | none => (none, cacheDelete kg st url params)

/-- Worker of `Cache._evict_oldest`: walk the entries sorted by
`created_at` and remove them until the total size is within the target. -/
def evictGo {α : Type} (target : ℚ) :
    List (String × CacheEntry) → CacheState α → CacheState α
  | [], st => st
  | (k, e) :: rest, st =>
    if st.totalSize ≤ target then st
    else evictGo target rest
      { st with
        entries := removeV k st.entries,
        files := removeV k st.files,
        totalSize := st.totalSize - e.size }

/-- Embeds `Cache._evict_oldest` with its default target
`int(max_size_bytes * 0.8)`. -/
def evictOldest {α : Type} (st : CacheState α) : CacheState α :=
  evictGo ((⌊(8 : ℚ)/10 * st.maxSizeBytes⌋ : ℤ) : ℚ)
    (st.entries.mergeSort (fun a b => decide (a.2.createdAt ≤ b.2.createdAt)))
    st

/-- Embeds `Cache.set` at time `now`: `ttl = ttl or self.default_ttl`
(`None` and `0` both fall back to the default), evict when the total size
has reached the ceiling, write the pickle file (its on-disk size `vsize` is
an oracle), record the metadata entry with
`expires_at = now + ttl`, and add the file size to the running total. -/
def cacheSet {α : Type} (kg : String → Option String → String)
    (st : CacheState α) (url : String) (params : Option String) (v : α)
    (vsize : ℚ) (ttl : Option ℚ) (now : ℚ) : CacheState α :=
  let key := kg url params
  let ttl2 := match ttl with
    | some t => if t = 0 then st.defaultTtl else t
    | none => st.defaultTtl
  let st1 := if st.maxSizeBytes ≤ st.totalSize then evictOldest st else st
  { st1 with
    files := updateV key v st1.files,
    entries := updateV key
      { createdAt := now, expiresAt := now + ttl2, size := vsize } st1.entries,
    totalSize := st1.totalSize + vsize }

end MDS

/-! ### Cache lemmas and the round-trip claim -/

namespace MDS

/-- Helper: the binding written by `updateV` is what `lookupV` finds. -/
theorem lookupV_updateV {β : Type} (k : String) (v : β)
    (l : List (String × β)) : lookupV k (updateV k v l) = some v := by
  unfold updateV
  by_cases h : (lookupV k l).isSome
  · rw [if_pos h]
    induction l with
    | nil => simp [lookupV] at h
    | cons hd tl ih =>
      obtain ⟨k2, x⟩ := hd
      by_cases hk : k2 = k
      · subst hk
        rw [List.map_cons, if_pos rfl]
        simp [lookupV]
      · simp only [lookupV, if_neg hk] at h
        rw [List.map_cons, if_neg hk]
        simp only [lookupV, if_neg hk]
        exact ih h
  · rw [if_neg h]
    have hn := Option.not_isSome_iff_eq_none.mp h
    induction l with
    | nil => simp [lookupV]
    | cons hd tl ih =>
      obtain ⟨k2, x⟩ := hd
      by_cases hk : k2 = k
      · subst hk
        simp [lookupV] at hn
      · simp only [lookupV, if_neg hk] at hn
        simp only [List.cons_append, lookupV, if_neg hk]
        exact ih (by simp [lookupV, if_neg hk, hn]) hn

end MDS

namespace MDS

/-- Helper: a popped key is no longer found. -/
theorem lookupV_removeV {β : Type} (k : String) (l : List (String × β)) :
    lookupV k (removeV k l) = none := by
  induction l with
  | nil => rfl
  | cons hd tl ih =>
    obtain ⟨k2, x⟩ := hd
    by_cases hk : k2 = k
    · subst hk
      simpa [removeV, List.filter] using ih
    · simpa [removeV, List.filter, hk, lookupV] using ih

/-- Helper: after `set(k, v, ttl)` at time `t` with `ttl ≠ 0`, the metadata
entry of `k` is `{created_at := t, expires_at := t + ttl, size := vsize}`. -/
theorem cacheSet_entry {α : Type} (kg : String → Option String → String)
    (st : CacheState α) (url : String) (params : Option String) (v : α)
    (vsize ttl t : ℚ) (httl : ttl ≠ 0) :
    lookupV (kg url params)
      (cacheSet kg st url params v vsize (some ttl) t).entries =
      some { createdAt := t, expiresAt := t + ttl, size := vsize } := by
  simp only [cacheSet]
  rw [if_neg httl]
  exact lookupV_updateV _ _ _

/-- Helper: after `set(k, v, ttl)` the pickle file of `k` holds `v`. -/
theorem cacheSet_file {α : Type} (kg : String → Option String → String)
    (st : CacheState α) (url : String) (params : Option String) (v : α)
    (vsize ttl t : ℚ) :
    lookupV (kg url params)
      (cacheSet kg st url params v vsize (some ttl) t).files = some v := by
  simp only [cacheSet]
  exact lookupV_updateV _ _ _

/-- C5 counterexample: with `set(k, v, ttl = 1)` at `t = 0`, a `get` at
`now = 1` — exactly at `expires_at` — still returns `v`, although
`now < t + ttl` fails: the code misses only when `now > expires_at`, not
when `now ≥ expires_at` as the claim's strict bound demands. -/
theorem C5_counterexample_hit_at_expiry :
    (cacheGet (fun u _ => u)
      (cacheSet (fun u _ => u)
        ({ entries := [], files := [], totalSize := 0,
           maxSizeBytes := 1000000, defaultTtl := 3600 } : CacheState String)
        "k" none "v" 1 (some 1) 0) "k" none 1).1 = some "v" ∧
    ¬ ((1 : ℚ) < 0 + 1) := by
  constructor
  · have he := cacheSet_entry (fun u _ => u)
      ({ entries := [], files := [], totalSize := 0,
         maxSizeBytes := 1000000, defaultTtl := 3600 } : CacheState String)
      "k" none "v" 1 1 0 (by norm_num)
    have hf := cacheSet_file (fun u _ => u)
      ({ entries := [], files := [], totalSize := 0,
         maxSizeBytes := 1000000, defaultTtl := 3600 } : CacheState String)
      "k" none "v" 1 1 0
    simp only [cacheGet, he, hf]
    norm_num
  · norm_num

/-- C5 (amended): after `set(k, v, ttl)` at time `t` with positive `ttl`, a
`get(k)` at time `now` returns `v` exactly when `now ≤ t + ttl`
(`now ≤ expiresAt`, the code's non-strict boundary); when `now > t + ttl`
the entry is expired, deleted from the metadata, and reported as a miss;
and an immediate `get` returns `v`. -/
theorem C5_cache_expiry (α : Type) (kg : String → Option String → String)
    (st : CacheState α) (url : String) (params : Option String) (v : α)
    (vsize ttl t now : ℚ) (httl : 0 < ttl) :
    ((cacheGet kg (cacheSet kg st url params v vsize (some ttl) t)
        url params now).1 = some v ↔ now ≤ t + ttl) ∧
    (t + ttl < now →
      (cacheGet kg (cacheSet kg st url params v vsize (some ttl) t)
        url params now).1 = none ∧
      lookupV (kg url params)
        ((cacheGet kg (cacheSet kg st url params v vsize (some ttl) t)
          url params now).2).entries = none) ∧
    (cacheGet kg (cacheSet kg st url params v vsize (some ttl) t)
        url params t).1 = some v := by
  have he := cacheSet_entry kg st url params v vsize ttl t (ne_of_gt httl)
  have hf := cacheSet_file kg st url params v vsize ttl t
  refine ⟨?_, ?_, ?_⟩
  · by_cases hn : t + ttl < now
    · simp only [cacheGet, he, hf, if_pos hn]
      simp
      linarith
    · simp only [cacheGet, he, hf, if_neg hn]
      simp
      linarith [not_lt.mp hn]
  · intro hn
    constructor
    · simp only [cacheGet, he, hf, if_pos hn]
    · simp only [cacheGet, he, hf, if_pos hn, cacheDelete]
      exact lookupV_removeV _ _
  · have hn : ¬ t + ttl < t := by linarith
    simp only [cacheGet, he, hf, if_neg hn]

/-- Witness for C5: a concrete round-trip — `set` with `ttl = 2` at
`t = 0`, `get` at `now = 1`. -/
theorem C5_cache_expiry_witness :
    ((cacheGet (fun u _ => u)
        (cacheSet (fun u _ => u)
          ({ entries := [], files := [], totalSize := 0,
             maxSizeBytes := 1000000, defaultTtl := 3600 } : CacheState String)
          "k2" none "w" 1 (some 2) 0) "k2" none 1).1 = some "w" ↔
      (1 : ℚ) ≤ 0 + 2) ∧
    ((0 : ℚ) + 2 < 1 →
      (cacheGet (fun u _ => u)
        (cacheSet (fun u _ => u)
          ({ entries := [], files := [], totalSize := 0,
             maxSizeBytes := 1000000, defaultTtl := 3600 } : CacheState String)
          "k2" none "w" 1 (some 2) 0) "k2" none 1).1 = none ∧
      lookupV ((fun u _ => u) "k2" (none : Option String))
        ((cacheGet (fun u _ => u)
          (cacheSet (fun u _ => u)
            ({ entries := [], files := [], totalSize := 0,
               maxSizeBytes := 1000000, defaultTtl := 3600 } : CacheState String)
            "k2" none "w" 1 (some 2) 0) "k2" none 1).2).entries = none) ∧
    (cacheGet (fun u _ => u)
      (cacheSet (fun u _ => u)
        ({ entries := [], files := [], totalSize := 0,
           maxSizeBytes := 1000000, defaultTtl := 3600 } : CacheState String)
        "k2" none "w" 1 (some 2) 0) "k2" none 0).1 = some "w" :=
  C5_cache_expiry String (fun u _ => u)
    ({ entries := [], files := [], totalSize := 0,
       maxSizeBytes := 1000000, defaultTtl := 3600 } : CacheState String)
    "k2" none "w" 1 2 0 1 (by norm_num)

end MDS

/-! ## Fetch with 429 handling (src/core/scraper.py, BaseScraper.fetch) -/

namespace MDS

/-- Exception classes that the 429 loop can raise: `requests.HTTPError`
(what the source raises) and the repository's own
`utils.exceptions.RateLimitError` (defined in exceptions.py but never
raised on this path; the two classes are unrelated in the source's
hierarchy). -/
inductive PyErr where
  | httpError (msg : String)
  | rateLimitExc (msg : String)
deriving DecidableEq, Repr

/-- One HTTP response: status code and the raw `Retry-After` header —
absent (`none`), present but unparseable by `float(...)`
(`some none`), or parsed to `r` (`some (some r)`). -/
structure HttpResp where
  status : ℕ
  retryAfter : Option (Option ℚ)
deriving DecidableEq, Repr

/-- Embeds the delay computed before retrying a 429 (scraper.py:377-391):
`base_delay * 2^attempt` (base 2.0) times the jitter draw from
`uniform(0.5, 1.5)`, raised to at least `Retry-After * 1.1` when the header
parses, plus an extra `uniform(5, 15)` seconds when human behavior is on. -/
def attemptDelay (resp : HttpResp) (jitterDraw humanExtra : ℚ)
    (humanBehavior : Bool) (attempt : ℕ) : ℚ :=
  let delay := 2 * 2 ^ attempt * jitterDraw
  let delay := match resp.retryAfter with
    | some (some r) => max delay (r * (11/10))
    | _ => delay
  if humanBehavior then delay + humanExtra else delay

/-- The message of the error raised when the 429 retries are exhausted
(it names the domain). -/
def rateLimitMsg (domain : String) : String :=
  "Rate limit (429) persists after 3 retries. Please increase the delay for "
    ++ domain ++ " in config/domains.yaml"

/-- Embeds the retry loop of `fetch` from a given attempt index
(`for attempt in range(max_429_retries + 1)` with `max_429_retries = 3`):
on a 429 with retries remaining, sleep `attemptDelay` and move to the next
attempt; on the fourth 429 raise `requests.HTTPError` naming the domain;
otherwise `raise_for_status` turns any ≥ 400 status into an HTTPError and a
good status returns the response.  The result pairs the slept delays with
the outcome.  Responses and random draws are indexed by attempt. -/
def fetch429Go (responses : ℕ → HttpResp) (jitters humanExtras : ℕ → ℚ)
    (humanBehavior : Bool) (domain : String) (attempt : ℕ) :
    List ℚ × Except PyErr HttpResp :=
  let resp := responses attempt
  if resp.status = 429 then
    if h : attempt < 3 then
      let d := attemptDelay resp (jitters attempt) (humanExtras attempt)
        humanBehavior attempt
      let tail := fetch429Go responses jitters humanExtras humanBehavior
        domain (attempt + 1)
      (d :: tail.1, tail.2)
    else ([], Except.error (PyErr.httpError (rateLimitMsg domain)))
  else if 400 ≤ resp.status then
    ([], Except.error (PyErr.httpError
      ("URL returned status code " ++ toString resp.status)))
  else ([], Except.ok resp)
termination_by 3 - attempt

/-- Discriminator: is the outcome a raised `RateLimitError`?  (Always
false for the source's 429 path.) -/
def isRateLimitExc : Except PyErr HttpResp → Bool
  | Except.error (PyErr.rateLimitExc _) => true
  | _ => false

end MDS

/-! ### Theorems for the 429 retry claim -/

namespace MDS

/-- C6 counterexample: a domain that always answers 429 with
`Retry-After: 5` makes the fetch give up after the 3 retries by raising
`requests.HTTPError` (message naming the domain) — not the repository's
`RateLimitError` class, contradicting the claim's exception type. -/
theorem C6_counterexample_http_error_not_ratelimit :
    (fetch429Go (fun _ => { status := 429, retryAfter := some (some 5) })
      (fun _ => 1) (fun _ => 0) false "example.com" 0).2
      = Except.error (PyErr.httpError (rateLimitMsg "example.com")) ∧
    isRateLimitExc
      (fetch429Go (fun _ => { status := 429, retryAfter := some (some 5) })
        (fun _ => 1) (fun _ => 0) false "example.com" 0).2 = false := by
  have h : (fetch429Go (fun _ => { status := 429, retryAfter := some (some 5) })
      (fun _ => 1) (fun _ => 0) false "example.com" 0).2
      = Except.error (PyErr.httpError (rateLimitMsg "example.com")) := by
    rw [fetch429Go]
    rw [fetch429Go]
    rw [fetch429Go]
    rw [fetch429Go]
    norm_num
  exact ⟨h, by rw [h]; rfl⟩

/-- C6 (amended): on a 429 with a parseable `Retry-After: r` and retries
remaining, the delay slept before the next attempt is at least `1.1 × r`
and at least the computed (jittered) exponential backoff; in a run where
every response is 429, the slept delays are exactly the three attempt
delays and the fetch gives up after the fixed ceiling of 3 retries by
raising an HTTP error whose message names the domain (the source raises
`requests.HTTPError`, not the repository's `RateLimitError`). -/
theorem C6_429_retry_delay (responses : ℕ → HttpResp)
    (jitters humanExtras : ℕ → ℚ) (hb : Bool) (domain : String)
    (a : ℕ) (r : ℚ) (ha : a < 3)
    (hr : (responses a).retryAfter = some (some r))
    (hhe : 0 ≤ humanExtras a) :
    (11/10 * r ≤ attemptDelay (responses a) (jitters a) (humanExtras a) hb a ∧
     2 * 2 ^ a * jitters a ≤
       attemptDelay (responses a) (jitters a) (humanExtras a) hb a) ∧
    ((∀ i : ℕ, (responses i).status = 429) →
      (fetch429Go responses jitters humanExtras hb domain 0).2
        = Except.error (PyErr.httpError (rateLimitMsg domain)) ∧
      (fetch429Go responses jitters humanExtras hb domain 0).1
        = [attemptDelay (responses 0) (jitters 0) (humanExtras 0) hb 0,
           attemptDelay (responses 1) (jitters 1) (humanExtras 1) hb 1,
           attemptDelay (responses 2) (jitters 2) (humanExtras 2) hb 2]) := by
  constructor
  · constructor
    · unfold attemptDelay
      rw [hr]
      cases hb with
      | false =>
        simp only [Bool.false_eq_true, if_false]
        calc 11/10 * r = r * (11/10) := by ring
        _ ≤ max (2 * 2 ^ a * jitters a) (r * (11/10)) := le_max_right _ _
      | true =>
        simp only [if_true]
        calc 11/10 * r = r * (11/10) := by ring
        _ ≤ max (2 * 2 ^ a * jitters a) (r * (11/10)) := le_max_right _ _
        _ ≤ max (2 * 2 ^ a * jitters a) (r * (11/10)) + humanExtras a := by
            linarith
    · unfold attemptDelay
      rw [hr]
      cases hb with
      | false =>
        simp only [Bool.false_eq_true, if_false]
        exact le_max_left _ _
      | true =>
        simp only [if_true]
        calc 2 * 2 ^ a * jitters a ≤
            max (2 * 2 ^ a * jitters a) (r * (11/10)) := le_max_left _ _
        _ ≤ max (2 * 2 ^ a * jitters a) (r * (11/10)) + humanExtras a := by
            linarith
  · intro h429
    have step : ∀ b : ℕ, b < 3 →
        fetch429Go responses jitters humanExtras hb domain b =
        ((attemptDelay (responses b) (jitters b) (humanExtras b) hb b) ::
          (fetch429Go responses jitters humanExtras hb domain (b + 1)).1,
         (fetch429Go responses jitters humanExtras hb domain (b + 1)).2) := by
      intro b hblt
      rw [fetch429Go]
      rw [if_pos (h429 b), dif_pos hblt]
    have last : fetch429Go responses jitters humanExtras hb domain 3 =
        ([], Except.error (PyErr.httpError (rateLimitMsg domain))) := by
      rw [fetch429Go]
      rw [if_pos (h429 3), dif_neg (by omega)]
    rw [step 0 (by omega), step 1 (by omega), step 2 (by omega), last]
    exact ⟨rfl, rfl⟩

/-- Witness for C6: the spec's scenario — every response is
`429, Retry-After: 5`, jitter draw 1, human behavior off. -/
theorem C6_429_retry_delay_witness :
    ((11 : ℚ)/10 * 5 ≤ attemptDelay
        { status := 429, retryAfter := some (some 5) } 1 0 false 0 ∧
      (2 : ℚ) * 2 ^ 0 * 1 ≤ attemptDelay
        { status := 429, retryAfter := some (some 5) } 1 0 false 0) ∧
    (fetch429Go (fun _ => { status := 429, retryAfter := some (some 5) })
        (fun _ => 1) (fun _ => 0) false "example.com" 0).2
      = Except.error (PyErr.httpError (rateLimitMsg "example.com")) ∧
    (fetch429Go (fun _ => { status := 429, retryAfter := some (some 5) })
        (fun _ => 1) (fun _ => 0) false "example.com" 0).1
      = [attemptDelay { status := 429, retryAfter := some (some 5) } 1 0 false 0,
         attemptDelay { status := 429, retryAfter := some (some 5) } 1 0 false 1,
         attemptDelay { status := 429, retryAfter := some (some 5) } 1 0 false 2] := by
  have h := C6_429_retry_delay
    (fun _ => { status := 429, retryAfter := some (some 5) })
    (fun _ => 1) (fun _ => 0) false "example.com" 0 5 (by omega) rfl le_rfl
  exact ⟨h.1, h.2 (fun _ => rfl)⟩

end MDS

/-! ## Relevance analyzer (src/core/relevance_analyzer.py, RelevanceAnalyzer) -/

namespace MDS

/-- Python `str.endswith`, computed over the character lists. -/
def strEndsWith (s suf : String) : Bool := suf.data.isSuffixOf s.data

/-- Seed baseline of the analyzer (`analyze_seed_content` output): the seed
keyword set (NLTK extraction is an oracle producing the set), the seed
domain, and the seed path tokens. -/
structure AnalyzerState where
  seedKeywords : Finset String
  seedDomain : String
  seedPathTokens : List String

/-- A text signal handed to the scorer: its extracted keyword set
(`_extract_keywords`, a tokenisation oracle) and its lowercase
whitespace-split words (for `_is_navigation_link`). -/
structure TextSignal where
  keywords : Finset String
  words : List String

/-- Signals extracted from a fetched destination page
(`_score_content_relevance` inputs): body, optional title, and heading
keyword sets. -/
structure ContentSignal where
  contentKeywords : Finset String
  titleKeywords : Option (Finset String)
  headingKeywords : Finset String

/-- All inputs of one `calculate_relevance_score` call.  `urlPathTokens`
and `urlNetloc` come from `urlparse`; `seqMatchScore` is the
`difflib.SequenceMatcher(...).ratio()` oracle; `isUnrelated` is the oracle
for `re.search` over the `unrelated_patterns` list of the class; the three
optional signals model the truthiness-guarded `link_text`, `link_context`
and `page_content` arguments (`none` for an absent or falsy argument). -/
structure ScoreInput where
  urlPathTokens : List String
  urlNetloc : String
  seqMatchScore : ℚ
  isUnrelated : Bool
  linkText : Option TextSignal
  linkContext : Option (Finset String)
  pageContent : Option ContentSignal

/-- The `navigation_keywords` set of the class. -/
def navigationKeywords : Finset String :=
  {"home", "menu", "navigation", "footer", "header", "sidebar",
   "copyright", "legal", "disclaimer", "accessibility", "sitemap",
   "help", "support", "faq", "social", "follow", "share", "subscribe"}

/-- Embeds `_is_navigation_link`: the link's words intersect the
navigation vocabulary. -/
def isNavigationLink (words : List String) : Bool :=
  decide ((words.toFinset ∩ navigationKeywords) ≠ ∅)

/-- Embeds `_score_url_similarity`: neutral 0.5 for root paths, shared
path-segment ratio when the token sets meet, else the difflib sequence
ratio of the joined paths (oracle `seqMatchScore`). -/
def scoreUrlSimilarity (st : AnalyzerState) (inp : ScoreInput) : ℚ :=
  if inp.urlPathTokens = [] ∨ st.seedPathTokens = [] then 1/2
  else
    let common := inp.urlPathTokens.toFinset ∩ st.seedPathTokens.toFinset
    if common ≠ ∅ then
      (common.card : ℚ) /
        ((max inp.urlPathTokens.length st.seedPathTokens.length : ℕ) : ℚ)
    else inp.seqMatchScore

/-- Embeds `_score_domain_similarity`: exact domain 1.0, subdomain of the
seed 0.8, seed a subdomain of it 0.7, shared two-label base domain 0.5,
else 0. -/
def scoreDomainSimilarity (st : AnalyzerState) (netloc : String) : ℚ :=
  if netloc = st.seedDomain then 1
  else if strEndsWith netloc ("." ++ st.seedDomain) then 8/10
  else if strEndsWith st.seedDomain ("." ++ netloc) then 7/10
  else
    let seedParts := st.seedDomain.splitOn "."
    let urlParts := netloc.splitOn "."
    if 2 ≤ seedParts.length ∧ 2 ≤ urlParts.length ∧
        seedParts.drop (seedParts.length - 2) =
          urlParts.drop (urlParts.length - 2)
    then 1/2 else 0

/-- Embeds `_score_text_relevance`: Jaccard similarity of the text and
seed keyword sets (0 when either is empty). -/
def scoreTextRelevance (st : AnalyzerState) (kw : Finset String) : ℚ :=
  if st.seedKeywords = ∅ then 0
  else if kw = ∅ then 0
  else
    let inter := (kw ∩ st.seedKeywords).card
    let uni := (kw ∪ st.seedKeywords).card
    if uni = 0 then 0 else (inter : ℚ) / (uni : ℚ)

/-- Embeds `_score_content_relevance`: title (weight 3), headings
(weight 2) and body (weight 1) overlap with the seed keywords, each
normalized by `max(len(seed_keywords), 1)`, averaged over the present
weights. -/
def scoreContentRelevance (st : AnalyzerState) (ci : ContentSignal) : ℚ :=
  if ci.contentKeywords = ∅ then 0
  else
    let seedMax : ℚ := ((max st.seedKeywords.card 1 : ℕ) : ℚ)
    let base : ℚ × ℚ := (0, 0)
    let withTitle := match ci.titleKeywords with
      | some tk =>
        (base.1 + ((tk ∩ st.seedKeywords).card : ℚ) / seedMax * 3, base.2 + 3)
      | none => base
    let withHead := if ci.headingKeywords ≠ ∅ then
        (withTitle.1 +
          ((ci.headingKeywords ∩ st.seedKeywords).card : ℚ) / seedMax * 2,
         withTitle.2 + 2)
      else withTitle
    let final := (withHead.1 +
        ((ci.contentKeywords ∩ st.seedKeywords).card : ℚ) / seedMax * 1,
      withHead.2 + 1)
    if 0 < final.2 then final.1 / final.2 else 0

/-- The `(score, weight)` pairs collected by `calculate_relevance_score`:
URL similarity (0.2) and domain similarity (0.1) always, link text (0.3),
context (0.2) and page content (0.2) when present. -/
def scorePairs (st : AnalyzerState) (inp : ScoreInput) : List (ℚ × ℚ) :=
  [(scoreUrlSimilarity st inp, (2 : ℚ)/10),
   (scoreDomainSimilarity st inp.urlNetloc, (1 : ℚ)/10)]
  ++ (match inp.linkText with
      | some ts => [(scoreTextRelevance st ts.keywords, (3 : ℚ)/10)]
      | none => [])
  ++ (match inp.linkContext with
      | some kw => [(scoreTextRelevance st kw, (2 : ℚ)/10)]
      | none => [])
  ++ (match inp.pageContent with
      | some ci => [(scoreContentRelevance st ci, (2 : ℚ)/10)]
      | none => [])

/-- The weighted average computed by `calculate_relevance_score` before
penalties: weights renormalized by their total, then
`sum(s * w for s, w in zip(scores, normalized_weights))` (0 when no scores
— unreachable, kept for fidelity). -/
def unpenalizedScore (st : AnalyzerState) (inp : ScoreInput) : ℚ :=
  let pairs := scorePairs st inp
  if pairs = [] then 0
  else
    let totalWeight := (pairs.map (fun p => p.2)).sum
    (pairs.map (fun p => p.1 * (p.2 / totalWeight))).sum

/-- Embeds `calculate_relevance_score`: the weighted average, times 0.1
for a known unrelated URL pattern, times 0.5 for navigation-vocabulary
link text, clamped into [0, 1]. -/
def calculateRelevanceScore (st : AnalyzerState) (inp : ScoreInput) : ℚ :=
  let raw := unpenalizedScore st inp
  let raw2 := if inp.isUnrelated then raw * (1/10) else raw
  let raw3 := match inp.linkText with
    | some ts => if isNavigationLink ts.words then raw2 * (1/2) else raw2
    | none => raw2
  min (max raw3 0) 1

end MDS

/-! ### Theorems for the relevance-bounds claim -/

namespace MDS

/-- Helper: `_score_url_similarity` is nonnegative (given the difflib
ratio oracle is). -/
theorem scoreUrlSimilarity_nonneg (st : AnalyzerState) (inp : ScoreInput)
    (hseq : 0 ≤ inp.seqMatchScore) : 0 ≤ scoreUrlSimilarity st inp := by
  unfold scoreUrlSimilarity
  split_ifs <;> try norm_num
  split_ifs <;> first | positivity | exact hseq

/-- Helper: `_score_domain_similarity` is nonnegative. -/
theorem scoreDomainSimilarity_nonneg (st : AnalyzerState) (netloc : String) :
    0 ≤ scoreDomainSimilarity st netloc := by
  unfold scoreDomainSimilarity
  split_ifs <;> try norm_num
  split_ifs <;> norm_num

/-- Helper: `_score_text_relevance` is nonnegative. -/
theorem scoreTextRelevance_nonneg (st : AnalyzerState) (kw : Finset String) :
    0 ≤ scoreTextRelevance st kw := by
  unfold scoreTextRelevance
  split_ifs <;> positivity

/-- Helper: `_score_content_relevance` is nonnegative. -/
theorem scoreContentRelevance_nonneg (st : AnalyzerState) (ci : ContentSignal) :
    0 ≤ scoreContentRelevance st ci := by
  unfold scoreContentRelevance
  rcases h : ci.titleKeywords with _ | tk <;>
    simp only [h] <;> split_ifs <;> positivity

/-- Helper: every collected `(score, weight)` pair is nonnegative. -/
theorem scorePairs_nonneg (st : AnalyzerState) (inp : ScoreInput)
    (hseq : 0 ≤ inp.seqMatchScore) :
    ∀ p ∈ scorePairs st inp, 0 ≤ p.1 ∧ 0 ≤ p.2 := by
  have h1 := scoreUrlSimilarity_nonneg st inp hseq
  have h2 := scoreDomainSimilarity_nonneg st inp.urlNetloc
  have hA : ∀ p ∈ [(scoreUrlSimilarity st inp, (2 : ℚ)/10),
      (scoreDomainSimilarity st inp.urlNetloc, (1 : ℚ)/10)],
      0 ≤ p.1 ∧ 0 ≤ p.2 := by
    intro p hp
    rcases List.mem_cons.mp hp with rfl | hp
    · exact ⟨h1, by norm_num⟩
    · rw [List.mem_singleton] at hp
      subst hp
      exact ⟨h2, by norm_num⟩
  have hB : ∀ p ∈ (match inp.linkText with
      | some ts => [(scoreTextRelevance st ts.keywords, (3 : ℚ)/10)]
      | none => []), 0 ≤ p.1 ∧ 0 ≤ p.2 := by
    rcases inp.linkText with _ | ts
    · intro p hp
      simp at hp
    · intro p hp
      rw [List.mem_singleton] at hp
      subst hp
      exact ⟨scoreTextRelevance_nonneg st ts.keywords, by norm_num⟩
  have hC : ∀ p ∈ (match inp.linkContext with
      | some kw => [(scoreTextRelevance st kw, (2 : ℚ)/10)]
      | none => []), 0 ≤ p.1 ∧ 0 ≤ p.2 := by
    rcases inp.linkContext with _ | kw
    · intro p hp
      simp at hp
    · intro p hp
      rw [List.mem_singleton] at hp
      subst hp
      exact ⟨scoreTextRelevance_nonneg st kw, by norm_num⟩
  have hD : ∀ p ∈ (match inp.pageContent with
      | some ci => [(scoreContentRelevance st ci, (2 : ℚ)/10)]
      | none => []), 0 ≤ p.1 ∧ 0 ≤ p.2 := by
    rcases inp.pageContent with _ | ci
    · intro p hp
      simp at hp
    · intro p hp
      rw [List.mem_singleton] at hp
      subst hp
      exact ⟨scoreContentRelevance_nonneg st ci, by norm_num⟩
  intro p hp
  rw [scorePairs] at hp
  rcases List.mem_append.mp hp with hp | hp
  · rcases List.mem_append.mp hp with hp | hp
    · rcases List.mem_append.mp hp with hp | hp
      · exact hA p hp
      · exact hB p hp
    · exact hC p hp
  · exact hD p hp

/-- Helper: the weighted average before penalties is nonnegative. -/
theorem unpenalizedScore_nonneg (st : AnalyzerState) (inp : ScoreInput)
    (hseq : 0 ≤ inp.seqMatchScore) : 0 ≤ unpenalizedScore st inp := by
  have hmem := scorePairs_nonneg st inp hseq
  unfold unpenalizedScore
  by_cases h : scorePairs st inp = []
  · simp [h]
  · simp only [if_neg h]
    apply List.sum_nonneg
    intro x hx
    obtain ⟨p, hp, hpx⟩ := List.mem_map.mp hx
    subst hpx
    have hW : 0 ≤ ((scorePairs st inp).map (fun p => p.2)).sum := by
      apply List.sum_nonneg
      intro w hw
      obtain ⟨q, hq, hqw⟩ := List.mem_map.mp hw
      subst hqw
      exact (hmem q hq).2
    exact mul_nonneg (hmem p hp).1 (div_nonneg (hmem p hp).2 hW)

/-- C8: for every URL and every combination of optional signals, the
relevance score lies in [0, 1] (given only that the difflib ratio oracle is
nonnegative), and for a URL matching a known non-content pattern the
returned score is at most 0.1 times the unpenalized weighted score. -/
theorem C8_relevance_score_bounds (st : AnalyzerState) (inp : ScoreInput)
    (hseq : 0 ≤ inp.seqMatchScore) :
    (0 ≤ calculateRelevanceScore st inp ∧ calculateRelevanceScore st inp ≤ 1) ∧
    (inp.isUnrelated = true →
      calculateRelevanceScore st inp ≤ 1/10 * unpenalizedScore st inp) := by
  have hu : 0 ≤ unpenalizedScore st inp := unpenalizedScore_nonneg st inp hseq
  refine ⟨⟨?_, ?_⟩, ?_⟩
  · simp only [calculateRelevanceScore]
    exact le_min (le_max_right _ _) (by norm_num)
  · simp only [calculateRelevanceScore]
    exact min_le_right _ _
  · intro hunrel
    simp only [calculateRelevanceScore, hunrel, if_true]
    rcases hlt : inp.linkText with _ | ts
    · calc min (max (unpenalizedScore st inp * (1/10)) 0) 1
          ≤ max (unpenalizedScore st inp * (1/10)) 0 := min_le_left _ _
      _ = unpenalizedScore st inp * (1/10) :=
          max_eq_left (mul_nonneg hu (by norm_num))
      _ = 1/10 * unpenalizedScore st inp := by ring
    · by_cases hnav : isNavigationLink ts.words
      · simp only [hnav, if_true]
        calc min (max (unpenalizedScore st inp * (1/10) * (1/2)) 0) 1
            ≤ max (unpenalizedScore st inp * (1/10) * (1/2)) 0 := min_le_left _ _
          _ = unpenalizedScore st inp * (1/10) * (1/2) :=
              max_eq_left (by positivity)
          _ ≤ 1/10 * unpenalizedScore st inp := by linarith
      · simp only [hnav, if_false]
        calc min (max (unpenalizedScore st inp * (1/10)) 0) 1
            ≤ max (unpenalizedScore st inp * (1/10)) 0 := min_le_left _ _
          _ = unpenalizedScore st inp * (1/10) :=
              max_eq_left (mul_nonneg hu (by norm_num))
          _ = 1/10 * unpenalizedScore st inp := by ring

/-- A concrete analyzer baseline for the relevance witness. -/
def wSt : AnalyzerState :=
  { seedKeywords := {"news", "sports"}, seedDomain := "example.com",
    seedPathTokens := ["news"] }

/-- A concrete scoring input matching an unrelated pattern
(`isUnrelated = true`, e.g. a `/login` URL). -/
def wInp : ScoreInput :=
  { urlPathTokens := ["news", "today"], urlNetloc := "example.com",
    seqMatchScore := 1/2, isUnrelated := true,
    linkText := some { keywords := {"news"}, words := ["share", "now"] },
    linkContext := none, pageContent := none }

/-- Witness for C8: the bounds and the 0.1× penalty at a concrete input. -/
theorem C8_relevance_score_bounds_witness :
    (0 ≤ calculateRelevanceScore wSt wInp ∧
      calculateRelevanceScore wSt wInp ≤ 1) ∧
    calculateRelevanceScore wSt wInp ≤ 1/10 * unpenalizedScore wSt wInp :=
  ⟨(C8_relevance_score_bounds wSt wInp (by norm_num [wInp])).1,
   (C8_relevance_score_bounds wSt wInp (by norm_num [wInp])).2 rfl⟩

end MDS
